import Mathlib

/-!
Verification of the summa_technologica V2 hypothesis pipeline
(`src/summa_technologica/crew_v2.py`, `crew_v2_postprocess.py`,
`crew_v2_stages.py`, `v2_contracts.py`, `semantic_scholar.py`)
against its natural-language specification.

Modelling conventions (shallow embedding):
* Python dynamic values (`Any`) are embedded as the inductive type `PyVal`
  (None / bool / int / float / str / list / dict).  Dicts are association
  lists; every dict the code builds has pairwise-distinct keys, and lookup
  returns the first binding.  Python floats are modelled as exact rationals:
  every numeric observable of the code is rounded to 3 decimals, which
  absorbs double-precision noise (at most ~1e-15 for these formulas).
* `str.strip` is modelled on the underlying character list
  (drop leading/trailing whitespace), `str.lower` by `Char.toLower`.
* Python's stable `sorted` is modelled by `List.insertionSort`, which is
  stable for the (total, decidable) key orders used here.
* Exceptions are modelled with `Except`/`Option`; an uncaught Python
  exception is an `Except.error` result.
* The generative reasoner, the network search call, the YAML config files,
  the `json` stdlib parser and the `jsonschema` library are external
  collaborators (out of scope per spec section 1); they enter the model as
  explicit oracle parameters.
-/

/-- Embedded model of a Python dynamic value. -/
inductive PyVal where
  | none : PyVal
  | bool : Bool → PyVal
  | int : Int → PyVal
  | float : ℚ → PyVal
  | str : String → PyVal
  | list : List PyVal → PyVal
  | dict : List (String × PyVal) → PyVal

namespace PyVal

/-- Python `d.get(key)`: first binding of the key (dicts built by the code
have distinct keys, so this is exact). -/
def get : PyVal → String → Option PyVal
  | dict kvs, k => kvs.lookup k
  | _, _ => Option.none

/-- Python `d[key] = v`: replace an existing binding in place, else append
(CPython dicts preserve insertion order). -/
def setKey (v : PyVal) (k : String) (x : PyVal) : PyVal :=
  match v with
  | dict kvs =>
      if (kvs.lookup k).isSome then
        dict (kvs.map fun kv => if kv.1 = k then (kv.1, x) else kv)
      else
        dict (kvs ++ [(k, x)])
  | other => other

end PyVal

/-- Whitespace class used by `str.strip` (ASCII whitespace; the prompts and
payloads handled by the pipeline are ASCII). -/
def isPyWS (c : Char) : Bool :=
  c = ' ' || c = '\t' || c = '\n' || c = '\r' || c = '\x0b' || c = '\x0c'

/-- Drop trailing characters satisfying `p`. -/
def rdropWhileP (p : Char → Bool) (l : List Char) : List Char :=
  (l.reverse.dropWhile p).reverse

/-- Character-list core of Python `str.strip()`. -/
def stripChars (l : List Char) : List Char :=
  rdropWhileP isPyWS (l.dropWhile isPyWS)

/-- Python `s.strip()`. -/
def pyStrip (s : String) : String :=
  ⟨stripChars s.data⟩

/-- Python `s.lower()` (ASCII case folding). -/
def pyLower (s : String) : String :=
  ⟨s.data.map Char.toLower⟩

/-- Python `str(x)` for the value shapes that reach `str()` in the embedded
code paths.  Container/float reprs are written out approximately; no theorem
below depends on them (the code only applies `str()` to author entries, which
are strings in every input a theorem touches). -/
def pyStr : PyVal → String
  | PyVal.none => "None"
  | PyVal.bool b => if b then "True" else "False"
  | PyVal.int n => toString n
  | PyVal.float q => toString q
  | PyVal.str s => s
  | PyVal.list _ => "[...]"
  | PyVal.dict _ => "\x7b...\x7d"

/-- Python truthiness of an optional string (`None` and `""` are falsy). -/
def truthyOptStr : Option String → Bool
  | Option.none => false
  | Option.some s => s ≠ ""

/-- Python `isinstance(x, int)` (True also for `bool`, a subclass of `int`). -/
def isIntLike : PyVal → Bool
  | PyVal.int _ => true
  | PyVal.bool _ => true
  | _ => false

/-- Integer value of an int-like `PyVal` (`True == 1`, `False == 0`). -/
def intValOf : PyVal → Int
  | PyVal.int n => n
  | PyVal.bool b => if b then 1 else 0
  | _ => 0

/-- `_normalize_doi` (identical in `crew_v2.py`, `crew_v2_postprocess.py`
and `semantic_scholar.py`): lowercase, strip, drop a `doi:` prefix. -/
def normalizeDoi : Option String → String
  | Option.none => ""
  | Option.some value =>
      if value = "" then ""
      else
        let normalized := pyLower (pyStrip value)
        if normalized.startsWith "doi:" then pyStrip (normalized.drop 4)
        else normalized

/-- `_as_nonempty_text`: strip a string value, else a fallback. -/
def asNonemptyText (value : PyVal) (fallback : String) : String :=
  match value with
  | PyVal.str s => if pyStrip s ≠ "" then pyStrip s else fallback
  | _ => fallback

/-- `_as_id`: a non-empty provided id, else `h{n}` from the counter. -/
def asId (value : PyVal) (fallbackCounter : Nat) : String :=
  match value with
  | PyVal.str s => if pyStrip s ≠ "" then pyStrip s else "h" ++ toString fallbackCounter
  | _ => "h" ++ toString fallbackCounter

/-- `_normalize_text_list`: keep stripped non-empty entries, else one fallback. -/
def normalizeTextList (value : PyVal) (fallback : String) : List String :=
  match value with
  | PyVal.list items =>
      let cleaned := (items.map fun item => pyStrip (pyStr item)).filter (· ≠ "")
      if cleaned ≠ [] then cleaned else [fallback]
  | _ => [fallback]

section StripLemmas

theorem dropWhile_head_not (p : Char → Bool) (l : List Char) :
    ∀ c cs, l.dropWhile p = c :: cs → p c = false := by
  induction l with
  | nil => intro c cs h; simp [List.dropWhile] at h
  | cons a t ih =>
      intro c cs h
      by_cases ha : p a
      · rw [List.dropWhile_cons_of_pos ha] at h
        exact ih c cs h
      · rw [List.dropWhile_cons_of_neg ha] at h
        cases h
        simpa using ha

theorem dropWhile_of_head_not (p : Char → Bool) (l : List Char)
    (h : ∀ c cs, l = c :: cs → p c = false) : l.dropWhile p = l := by
  cases l with
  | nil => rfl
  | cons a t => exact List.dropWhile_cons_of_neg (by simpa using h a t rfl)

theorem dropWhile_idem (p : Char → Bool) (l : List Char) :
    (l.dropWhile p).dropWhile p = l.dropWhile p :=
  dropWhile_of_head_not p _ (fun c cs h => dropWhile_head_not p l c cs h)

theorem rdropWhileP_idem (p : Char → Bool) (l : List Char) :
    rdropWhileP p (rdropWhileP p l) = rdropWhileP p l := by
  unfold rdropWhileP
  rw [List.reverse_reverse, dropWhile_idem]

/-- `rdropWhileP` keeps a prefix of its input, so if the input's head never
satisfies `p`, neither does the output's head. -/
theorem rdropWhileP_head_not (p : Char → Bool) (m : List Char)
    (hm : ∀ c cs, m = c :: cs → p c = false) :
    ∀ c cs, rdropWhileP p m = c :: cs → p c = false := by
  intro c cs h
  have hsuff : m.reverse.dropWhile p <:+ m.reverse := List.dropWhile_suffix p
  rcases hsuff with ⟨t, ht⟩
  have hm2 : m = (m.reverse.dropWhile p).reverse ++ t.reverse := by
    have := congrArg List.reverse ht
    simpa [List.reverse_append] using this.symm
  unfold rdropWhileP at h
  rw [h] at hm2
  exact hm c (cs ++ t.reverse) (by simpa using hm2)

/-- After `dropWhile` and then `rdropWhileP`, a further leading `dropWhile`
is the identity. -/
theorem dropWhile_rdropWhileP_comm (p : Char → Bool) (l : List Char) :
    (rdropWhileP p (l.dropWhile p)).dropWhile p = rdropWhileP p (l.dropWhile p) :=
  dropWhile_of_head_not p _
    (rdropWhileP_head_not p _ (fun c cs h => dropWhile_head_not p l c cs h))

theorem stripChars_idem (l : List Char) :
    stripChars (stripChars l) = stripChars l := by
  unfold stripChars
  rw [dropWhile_rdropWhileP_comm, rdropWhileP_idem]

theorem pyStrip_idem (s : String) : pyStrip (pyStrip s) = pyStrip s := by
  unfold pyStrip
  simp [stripChars_idem]

theorem pyStrip_empty : pyStrip "" = "" := rfl

theorem normalizeDoi_pyStrip (s : String) :
    normalizeDoi (Option.some (pyStrip s)) = normalizeDoi (Option.some s) := by
  by_cases h0 : s = ""
  · subst h0; rfl
  · by_cases hs : pyStrip s = ""
    · have hL : normalizeDoi (Option.some (pyStrip s)) = "" := by rw [hs]; rfl
      have hR : normalizeDoi (Option.some s) = "" := by
        simp only [normalizeDoi]
        rw [if_neg h0, hs]
        rfl
      rw [hL, hR]
    · unfold normalizeDoi
      simp only [hs, h0, if_neg, pyStrip_idem]

end StripLemmas

/-! ## Paper catalog model (`semantic_scholar.SemanticScholarPaper`) -/

/-- `SemanticScholarPaper` dataclass. -/
structure Paper where
  paperId : Option String
  title : String
  authors : List String
  year : Int
  abstract : String
  citationCount : Option Int
  doi : Option String
  url : Option String
  sourceQuery : String
deriving DecidableEq, Repr

/-- `{paper.paper_id for paper in grounded_papers if paper.paper_id}`
(set modelled as a list; only membership is used). -/
def validIdsOf (papers : List Paper) : List String :=
  papers.filterMap fun p =>
    match p.paperId with
    | Option.some s => if s ≠ "" then Option.some s else Option.none
    | Option.none => Option.none

/-- `{_normalize_doi(paper.doi) for paper in grounded_papers if paper.doi}`. -/
def validDoisOf (papers : List Paper) : List String :=
  papers.filterMap fun p =>
    match p.doi with
    | Option.some s => if s ≠ "" then Option.some (normalizeDoi (Option.some s)) else Option.none
    | Option.none => Option.none

/-! ## Objections / replies filler
(`_ensure_objections` / `_ensure_replies`, identical in `crew_v2.py` and
`crew_v2_postprocess.py`).  The kept items are `{"number": int, "text": str}`
dicts; we carry them as typed entries (Python `True`/`False` numbers are
int-like and collapse to 1/0, exactly as `==`/`sorted` treat them). -/

/-- One kept objection entry. -/
structure ObjEntry where
  number : Int
  text : String
deriving DecidableEq, Repr

/-- One kept reply entry. -/
structure RepEntry where
  objectionNumber : Int
  text : String
deriving DecidableEq, Repr

/-- Python `.get(key)` with `None` default. -/
def PyVal.getd (v : PyVal) (k : String) : PyVal :=
  (v.get k).getD PyVal.none

/-- Filtering pass of `_ensure_objections`: keep dict items with an integer
`number` and a non-empty string `text` (text stripped). -/
def collectObjections (raw : PyVal) : List ObjEntry :=
  match raw with
  | PyVal.list items =>
      items.filterMap fun item =>
        match item with
        | PyVal.dict _ =>
            let number := item.getd "number"
            match item.getd "text" with
            | PyVal.str t =>
                if isIntLike number ∧ pyStrip t ≠ "" then
                  Option.some ⟨intValOf number, pyStrip t⟩
                else Option.none
            | _ => Option.none
        | _ => Option.none
  | _ => []

/-- Same pass for `_ensure_replies` (keyed by `objection_number`). -/
def collectReplies (raw : PyVal) : List RepEntry :=
  match raw with
  | PyVal.list items =>
      items.filterMap fun item =>
        match item with
        | PyVal.dict _ =>
            let number := item.getd "objection_number"
            match item.getd "text" with
            | PyVal.str t =>
                if isIntLike number ∧ pyStrip t ≠ "" then
                  Option.some ⟨intValOf number, pyStrip t⟩
                else Option.none
            | _ => Option.none
        | _ => Option.none
  | _ => []

/-- Sort key order for objections (`sorted(..., key=lambda item: item["number"])`,
stable). -/
def objLE (a b : ObjEntry) : Prop := a.number ≤ b.number

instance : DecidableRel objLE := fun a b => inferInstanceAs (Decidable (a.number ≤ b.number))

def repLE (a b : RepEntry) : Prop := a.objectionNumber ≤ b.objectionNumber

instance : DecidableRel repLE := fun a b => inferInstanceAs (Decidable (a.objectionNumber ≤ b.objectionNumber))

/-- Placeholder text for a missing objection `n`. -/
def objPlaceholder (n : Int) : String :=
  "Objection " ++ toString n ++ " was not explicitly provided; further critique required."

/-- Placeholder text for a missing reply to objection `n`. -/
def repPlaceholder (n : Int) : String :=
  "Reply to objection " ++ toString n ++ " requires further elaboration."

/-- Shared core of `_ensure_objections`/`_ensure_replies` on kept
`(number, text)` entries: sort by number, append a placeholder for each
`n ∈ [1,2,3]` not already present (the appended placeholders have distinct
numbers, so checking against the original kept list is equivalent to
checking against the growing list), re-sort, truncate to 3. -/
def fillTriplets (placeholder : Int → String) (kept : List ObjEntry) : List ObjEntry :=
  let entries := List.insertionSort objLE kept
  let withMissing := entries ++
    (([1, 2, 3] : List Int).filter
        (fun n => ¬ entries.any (fun item => item.number = n))).map
      (fun n => ⟨n, placeholder n⟩)
  (List.insertionSort objLE withMissing).take 3

/-- `RepEntry` is `ObjEntry` with the number field renamed
(`objection_number`); the two casts below are this renaming. -/
def repAsObj (r : RepEntry) : ObjEntry := ⟨r.objectionNumber, r.text⟩

def objAsRep (o : ObjEntry) : RepEntry := ⟨o.number, o.text⟩

/-- `_ensure_objections`, producing the typed entries. -/
def ensureObjEntries (raw : PyVal) : List ObjEntry :=
  fillTriplets objPlaceholder (collectObjections raw)

/-- `_ensure_replies`, producing the typed entries (the reply logic is the
objection logic keyed on `objection_number`, expressed through the field
renaming). -/
def ensureRepEntries (raw : PyVal) : List RepEntry :=
  (fillTriplets repPlaceholder ((collectReplies raw).map repAsObj)).map objAsRep

/-- Emitted objection dict `{"number": n, "text": t}`. -/
def objEntryToDict (e : ObjEntry) : PyVal :=
  PyVal.dict [("number", PyVal.int e.number), ("text", PyVal.str e.text)]

/-- Emitted reply dict `{"objection_number": n, "text": t}`. -/
def repEntryToDict (e : RepEntry) : PyVal :=
  PyVal.dict [("objection_number", PyVal.int e.objectionNumber), ("text", PyVal.str e.text)]

/-- `_ensure_objections` as the code returns it (list of dicts). -/
def ensureObjections (raw : PyVal) : List PyVal :=
  (ensureObjEntries raw).map objEntryToDict

/-- `_ensure_replies` as the code returns it (list of dicts). -/
def ensureReplies (raw : PyVal) : List PyVal :=
  (ensureRepEntries raw).map repEntryToDict

/-! ## Citation sanitizer (`_sanitize_citations`, identical in `crew_v2.py`
and `crew_v2_postprocess.py`) -/

/-- The field reads and type checks at the top of one `_sanitize_citations`
loop iteration: the title string, raw author list, year value, and the
`paper_id`/`doi` fields when they are strings (a non-string anchor field and
a missing one fail the `isinstance(…, str)` checks identically). -/
def parseCitation (citation : PyVal) :
    Option (String × List PyVal × PyVal × Option String × Option String) :=
  match citation with
  | PyVal.dict _ =>
      match citation.getd "title" with
      | PyVal.str t =>
          if pyStrip t = "" then Option.none
          else
            match citation.getd "authors" with
            | PyVal.list auths =>
                if auths.isEmpty then Option.none
                else if ¬ isIntLike (citation.getd "year") then Option.none
                else
                  Option.some (t, auths, citation.getd "year",
                    (match citation.getd "paper_id" with
                     | PyVal.str s => Option.some s
                     | _ => Option.none),
                    (match citation.getd "doi" with
                     | PyVal.str s => Option.some s
                     | _ => Option.none))
            | _ => Option.none
      | _ => Option.none
  | _ => Option.none

/-- The canonical payload emitted by the sanitizer: cleaned title/authors,
carried-over year, and the validated anchors appended in order. -/
def mkSanPayload (t : String) (auths : List String) (year : PyVal)
    (pid doi : Option String) : PyVal :=
  PyVal.dict
    ([("title", PyVal.str t),
      ("authors", PyVal.list (auths.map PyVal.str)),
      ("year", year)] ++
     (match pid with
      | Option.some s => [("paper_id", PyVal.str s)]
      | Option.none => []) ++
     (match doi with
      | Option.some s => [("doi", PyVal.str s)]
      | Option.none => []))

/-- Body of one iteration of the `_sanitize_citations` loop: either `none`
(the candidate is dropped before the dedup check) or the dedup key together
with the canonical payload that would be emitted. -/
def sanitizeOne (validIds validDois : List String) (citation : PyVal) :
    Option (String × PyVal) :=
  match parseCitation citation with
  | Option.none => Option.none
  | Option.some (t, auths, year, pid, doi) =>
      let hasValidPaperId : Bool :=
        match pid with
        | Option.some s => decide (pyStrip s ∈ validIds)
        | Option.none => false
      let hasValidDoi : Bool :=
        match doi with
        | Option.some s => decide (normalizeDoi (Option.some s) ∈ validDois)
        | Option.none => false
      if hasValidPaperId ∨ hasValidDoi then
        let key :=
          if hasValidPaperId then
            match pid with
            | Option.some s => pyStrip s
            | Option.none => ""
          else
            match doi with
            | Option.some s => "doi:" ++ normalizeDoi (Option.some s)
            | Option.none => "doi:"
        let cleanedAuthors :=
          (auths.map fun item => pyStrip (pyStr item)).filter (· ≠ "")
        let payload := mkSanPayload (pyStrip t) cleanedAuthors year
          (if hasValidPaperId then pid.map pyStrip else Option.none)
          (if hasValidDoi then doi.map pyStrip else Option.none)
        Option.some (key, payload)
      else Option.none

/-- The `seen`-deduplicating loop of `_sanitize_citations`. -/
def sanitizeGo (validIds validDois : List String) :
    List PyVal → List String → List PyVal
  | [], _ => []
  | c :: rest, seen =>
      match sanitizeOne validIds validDois c with
      | Option.none => sanitizeGo validIds validDois rest seen
      | Option.some (key, payload) =>
          if key ∈ seen then sanitizeGo validIds validDois rest seen
          else payload :: sanitizeGo validIds validDois rest (key :: seen)

/-- `_sanitize_citations(citations, grounded_papers)`. -/
def sanitizeCitations (citations : PyVal) (papers : List Paper) : List PyVal :=
  match citations with
  | PyVal.list cs => sanitizeGo (validIdsOf papers) (validDoisOf papers) cs []
  | _ => []

/-! ## Grounding fallback (`_fallback_grounded_citations`,
`crew_v2_postprocess.py` only) -/

/-- Eligibility filter of the fallback loop (the `isinstance` checks are
vacuous in the typed model: the catalog is a `list[SemanticScholarPaper]`
and `year` is an `int` field). -/
def fallbackKeep (p : Paper) : Prop :=
  p.title ≠ "" ∧ (1800 ≤ p.year ∧ p.year ≤ 2100) ∧ p.authors ≠ [] ∧
    (truthyOptStr p.paperId ∨ truthyOptStr p.doi)

instance : DecidablePred fallbackKeep := fun _ => by
  unfold fallbackKeep; infer_instance

/-- `key = paper.paper_id or f"doi:{_normalize_doi(paper.doi)}"`. -/
def fallbackKey (p : Paper) : String :=
  match p.paperId with
  | Option.some s => if s ≠ "" then s else "doi:" ++ normalizeDoi p.doi
  | Option.none => "doi:" ++ normalizeDoi p.doi

/-- The citation dict emitted for a fallback paper. -/
def fallbackCite (p : Paper) : PyVal :=
  PyVal.dict
    ([("title", PyVal.str (pyStrip p.title)),
      ("authors", PyVal.list (((p.authors.map pyStrip).filter (· ≠ "")).map PyVal.str)),
      ("year", PyVal.int p.year)] ++
     (match p.paperId with
      | Option.some s => if s ≠ "" then [("paper_id", PyVal.str (pyStrip s))] else []
      | Option.none => []) ++
     (match p.doi with
      | Option.some s => if s ≠ "" then [("doi", PyVal.str (pyStrip s))] else []
      | Option.none => []))

/-- The fallback loop with its dedup set and `len(fallback) >= max(1, limit)`
break. -/
def fallbackGo (limit : Nat) : List Paper → List String → Nat → List PyVal
  | [], _, _ => []
  | p :: rest, seen, count =>
      if fallbackKeep p then
        if fallbackKey p ∈ seen then fallbackGo limit rest seen count
        else if count + 1 ≥ max 1 limit then [fallbackCite p]
        else fallbackCite p :: fallbackGo limit rest (fallbackKey p :: seen) (count + 1)
      else fallbackGo limit rest seen count

/-- `_fallback_grounded_citations(grounded_papers, limit=3)`. -/
def fallbackGroundedCitations (papers : List Paper) (limit : Nat := 3) : List PyVal :=
  fallbackGo limit papers [] 0

/-! ## Generator / critic normalizers

`crew_v2.py` and `crew_v2_postprocess.py` each carry their own
`_normalize_generated_hypotheses`; the variants differ: the
`crew_v2_postprocess.py` one substitutes fallback grounded citations when the
sanitized list is empty and fills objections/replies, the `crew_v2.py` one
does neither.  Both are embedded. -/

/-- The `while hypothesis_id in seen_ids` collision loop.  `fuel` only bounds
the recursion for Lean: `seen.length + 1` fresh candidates `h{n}` with
distinct `n` cannot all collide with `seen`, so the fuel is never exhausted
on reachable inputs. -/
def resolveIdGo : Nat → String → Nat → List String → String × Nat
  | 0, cand, counter, _ => (cand, counter)
  | Nat.succ fuel, cand, counter, seen =>
      if cand ∉ seen then (cand, counter)
      else resolveIdGo fuel (asId PyVal.none (counter + 1)) (counter + 1) seen

/-- Hypothesis dict built by `crew_v2.py`'s `_normalize_generated_hypotheses`
(no citation fallback, no objections/replies). -/
def mkHypV2 (hid : String) (item : PyVal) (papers : List Paper) : PyVal :=
  PyVal.dict
    [("id", PyVal.str hid),
     ("title", PyVal.str (asNonemptyText (item.getd "title") ("Hypothesis " ++ hid))),
     ("statement", PyVal.str (asNonemptyText (item.getd "statement") "No statement provided.")),
     ("novelty_rationale",
      PyVal.str (asNonemptyText (item.getd "novelty_rationale") "Novelty rationale unavailable.")),
     ("plausibility_rationale",
      PyVal.str (asNonemptyText (item.getd "plausibility_rationale")
        "Plausibility rationale unavailable.")),
     ("testability_rationale",
      PyVal.str (asNonemptyText (item.getd "testability_rationale")
        "Testability rationale unavailable.")),
     ("falsifiable_predictions",
      PyVal.list ((normalizeTextList (item.getd "falsifiable_predictions")
        "Prediction not provided.").map PyVal.str)),
     ("minimal_experiments",
      PyVal.list ((normalizeTextList (item.getd "minimal_experiments")
        "Experiment plan not provided.").map PyVal.str)),
     ("citations", PyVal.list (sanitizeCitations (item.getd "citations") papers))]

/-- Hypothesis dict built by `crew_v2_postprocess.py`'s
`_normalize_generated_hypotheses` (citation fallback + objection/reply
triplets). -/
def mkHypPost (hid : String) (item : PyVal) (papers : List Paper) : PyVal :=
  let citations0 := sanitizeCitations (item.getd "citations") papers
  let citations := if citations0.isEmpty then fallbackGroundedCitations papers else citations0
  PyVal.dict
    [("id", PyVal.str hid),
     ("title", PyVal.str (asNonemptyText (item.getd "title") ("Hypothesis " ++ hid))),
     ("statement", PyVal.str (asNonemptyText (item.getd "statement") "No statement provided.")),
     ("novelty_rationale",
      PyVal.str (asNonemptyText (item.getd "novelty_rationale") "Novelty rationale unavailable.")),
     ("plausibility_rationale",
      PyVal.str (asNonemptyText (item.getd "plausibility_rationale")
        "Plausibility rationale unavailable.")),
     ("testability_rationale",
      PyVal.str (asNonemptyText (item.getd "testability_rationale")
        "Testability rationale unavailable.")),
     ("falsifiable_predictions",
      PyVal.list ((normalizeTextList (item.getd "falsifiable_predictions")
        "Prediction not provided.").map PyVal.str)),
     ("minimal_experiments",
      PyVal.list ((normalizeTextList (item.getd "minimal_experiments")
        "Experiment plan not provided.").map PyVal.str)),
     ("citations", PyVal.list citations),
     ("objections", PyVal.list (ensureObjections (item.getd "objections"))),
     ("replies", PyVal.list (ensureReplies (item.getd "replies")))]

/-- Main loop of either `_normalize_generated_hypotheses`, parameterized by
the per-item builder.  Tracks `seen_ids` and the fallback counter. -/
def normGenGo (mk : String → PyVal → List Paper → PyVal) (papers : List Paper) :
    List PyVal → List String → Nat → List PyVal
  | [], _, _ => []
  | item :: rest, seen, counter =>
      match item with
      | PyVal.dict _ =>
          let cand := asId (item.getd "id") counter
          let res := resolveIdGo (seen.length + 1) cand counter seen
          mk res.1 item papers ::
            normGenGo mk papers rest (res.1 :: seen) (res.2 + 1)
      | _ => normGenGo mk papers rest seen counter

/-- `crew_v2._normalize_generated_hypotheses`. -/
def normalizeGeneratedV2 (payload : PyVal) (papers : List Paper) :
    Except String (List PyVal) :=
  match payload.getd "hypotheses" with
  | PyVal.list raw => Except.ok ((normGenGo mkHypV2 papers raw [] 1).take 5)
  | _ => Except.error "Generator output must include hypotheses array."

/-- `crew_v2_postprocess._normalize_generated_hypotheses`. -/
def normalizeGeneratedPost (payload : PyVal) (papers : List Paper) :
    Except String (List PyVal) :=
  match payload.getd "hypotheses" with
  | PyVal.list raw => Except.ok ((normGenGo mkHypPost papers raw [] 1).take 5)
  | _ => Except.error "Generator output must include hypotheses array."

/-- Hypothesis dict built by `crew_v2._normalize_critic_hypotheses` for a
usable critic item (sanitized citations, ensured triplets). -/
def mkHypCritic (hid : String) (item : PyVal) (papers : List Paper) : PyVal :=
  PyVal.dict
    [("id", PyVal.str hid),
     ("title", PyVal.str (asNonemptyText (item.getd "title") ("Hypothesis " ++ hid))),
     ("statement", PyVal.str (asNonemptyText (item.getd "statement") "No statement provided.")),
     ("novelty_rationale",
      PyVal.str (asNonemptyText (item.getd "novelty_rationale") "Novelty rationale unavailable.")),
     ("plausibility_rationale",
      PyVal.str (asNonemptyText (item.getd "plausibility_rationale")
        "Plausibility rationale unavailable.")),
     ("testability_rationale",
      PyVal.str (asNonemptyText (item.getd "testability_rationale")
        "Testability rationale unavailable.")),
     ("falsifiable_predictions",
      PyVal.list ((normalizeTextList (item.getd "falsifiable_predictions")
        "Prediction not provided.").map PyVal.str)),
     ("minimal_experiments",
      PyVal.list ((normalizeTextList (item.getd "minimal_experiments")
        "Experiment plan not provided.").map PyVal.str)),
     ("citations", PyVal.list (sanitizeCitations (item.getd "citations") papers)),
     ("objections", PyVal.list (ensureObjections (item.getd "objections"))),
     ("replies", PyVal.list (ensureReplies (item.getd "replies")))]

/-- Critic loop of `crew_v2._normalize_critic_hypotheses` (skip non-dicts,
empty ids and duplicate ids). -/
def normCriticGo (papers : List Paper) : List PyVal → List String → List PyVal
  | [], _ => []
  | item :: rest, seen =>
      match item with
      | PyVal.dict _ =>
          let hid := asNonemptyText (item.getd "id") ""
          if hid = "" ∨ hid ∈ seen then normCriticGo papers rest seen
          else mkHypCritic hid item papers :: normCriticGo papers rest (hid :: seen)
      | _ => normCriticGo papers rest seen

/-- Trailing loop of `_normalize_critic_hypotheses`: add default triplets to
hypotheses missing the keys. -/
def addMissingTriplets (h : PyVal) : PyVal :=
  let h1 := if (h.get "objections").isNone then
      h.setKey "objections" (PyVal.list (ensureObjections PyVal.none)) else h
  if (h1.get "replies").isNone then
      h1.setKey "replies" (PyVal.list (ensureReplies PyVal.none)) else h1

/-- `crew_v2._normalize_critic_hypotheses`. -/
def normalizeCriticV2 (criticPayload : PyVal) (fallback : List PyVal)
    (papers : List Paper) : Except String (List PyVal) :=
  let hypotheses :=
    match criticPayload.getd "hypotheses" with
    | PyVal.list raw => if raw.isEmpty then fallback else normCriticGo papers raw []
    | _ => fallback
  if hypotheses.isEmpty then
    Except.error "Critic output did not provide any usable hypotheses."
  else
    Except.ok ((hypotheses.map addMissingTriplets).take 5)

/-! ## Pairwise ranking (`_apply_pairwise_ranking`)

Two variants share the comparison-normalization phase:
* `crew_v2.py` accumulates only integer win counts and computes scores from
  them;
* `crew_v2_postprocess.py` additionally accumulates 1.0/0.5/0.0 points and
  computes scores from the points. -/

/-- A normalized comparison record. -/
structure Cmp where
  aId : String
  bId : String
  winNov : String
  winPlaus : String
  winTest : String
deriving DecidableEq, Repr

/-- `_winner`: coerce to `"a"`/`"b"`/`"tie"`, defaulting to `"tie"`. -/
def winnerOf (v : PyVal) : String :=
  let text := pyLower (pyStrip (pyStr v))
  if text = "a" ∨ text = "b" ∨ text = "tie" then text else "tie"

/-- `tuple(sorted([a, b]))`. -/
def sortPair (x y : String) : String × String :=
  if x ≤ y then (x, y) else (y, x)

/-- First phase of comparison normalization: drop non-dicts, items with a
missing/self/unknown id, and duplicates of an already-seen unordered pair.
Returns the kept comparisons and the final `seen_pairs`. -/
def normCompsGo (ids : List String) :
    List PyVal → List (String × String) → List Cmp × List (String × String)
  | [], seen => ([], seen)
  | item :: rest, seen =>
      match item with
      | PyVal.dict _ =>
          let a := asNonemptyText (item.getd "hypothesis_a_id") ""
          let b := asNonemptyText (item.getd "hypothesis_b_id") ""
          if a = "" ∨ b = "" ∨ a = b ∨ a ∉ ids ∨ b ∉ ids then
            normCompsGo ids rest seen
          else
            let pair := sortPair a b
            if pair ∈ seen then normCompsGo ids rest seen
            else
              let res := normCompsGo ids rest (pair :: seen)
              (⟨a, b, winnerOf (item.getd "winner_novelty"),
                winnerOf (item.getd "winner_plausibility"),
                winnerOf (item.getd "winner_testability")⟩ :: res.1, res.2)
      | _ => normCompsGo ids rest seen

/-- All unordered pairs `{ids[i], ids[j]}`, `i < j`, as sorted tuples. -/
def upairs : List String → List (String × String)
  | [] => []
  | x :: xs => xs.map (sortPair x) ++ upairs xs

/-- Lexicographic order used by `sorted(expected_pairs)`. -/
def pairLE (p q : String × String) : Prop :=
  p.1 < q.1 ∨ (p.1 = q.1 ∧ p.2 ≤ q.2)

instance : DecidableRel pairLE := fun p q => by unfold pairLE; infer_instance

/-- `expected_pairs` (a Python set, then `sorted`): deduplicated sorted
pairs. -/
def expectedPairs (ids : List String) : List (String × String) :=
  List.insertionSort pairLE (upairs ids).dedup

/-- Synthetic all-tie comparison for an uncovered pair. -/
def tieCmp (p : String × String) : Cmp :=
  ⟨p.1, p.2, "tie", "tie", "tie"⟩

/-- The combined comparison list: kept ranker comparisons plus synthetic
all-ties for uncovered expected pairs. -/
def combinedComparisons (ids : List String) (comparisons : List PyVal) : List Cmp :=
  let res := normCompsGo ids comparisons []
  res.1 ++ ((expectedPairs ids).filter (fun p => p ∉ res.2)).map tieCmp

/-- Python `round(x, 3)` on the exact rational value (round-half-to-even;
the double-precision representation error, ~1e-15 here, never moves a value
across a rounding boundary for these formulas). -/
def pyRound3 (q : ℚ) : ℚ :=
  let s := q * 1000
  let f : ℤ := ⌊s⌋
  let r := s - (f : ℚ)
  let n : ℤ :=
    if r < 1 / 2 then f
    else if 1 / 2 < r then f + 1
    else if f % 2 = 0 then f else f + 1
  (n : ℚ) / 1000

/-- The three ranking dimensions. -/
inductive Dim where
  | novelty
  | plausibility
  | testability
deriving DecidableEq, Repr

/-- Per-hypothesis counters for the three dimensions (used both for the
integer `wins` map and the rational `points` map). -/
structure DimCounts (α : Type) where
  novelty : α
  plausibility : α
  testability : α
deriving DecidableEq, Repr

def DimCounts.get {α : Type} (c : DimCounts α) : Dim → α
  | Dim.novelty => c.novelty
  | Dim.plausibility => c.plausibility
  | Dim.testability => c.testability

def DimCounts.bump {α : Type} [Add α] (c : DimCounts α) (d : Dim) (delta : α) :
    DimCounts α :=
  match d with
  | Dim.novelty => { c with novelty := c.novelty + delta }
  | Dim.plausibility => { c with plausibility := c.plausibility + delta }
  | Dim.testability => { c with testability := c.testability + delta }

/-- `wins[x][dimension] += delta` on the association-list map. -/
def bumpMap {α : Type} [Add α] (m : List (String × DimCounts α)) (k : String)
    (d : Dim) (delta : α) : List (String × DimCounts α) :=
  m.map fun kv => if kv.1 = k then (kv.1, kv.2.bump d delta) else kv

/-- `_accumulate_win`: +1 to the winner only. -/
def accumulateWin (wins : List (String × DimCounts Int)) (d : Dim)
    (winner a b : String) : List (String × DimCounts Int) :=
  if winner = "a" then bumpMap wins a d 1
  else if winner = "b" then bumpMap wins b d 1
  else wins

/-- `_accumulate_points`: +1.0 to the winner, else +0.5 to both sides. -/
def accumulatePoints (points : List (String × DimCounts ℚ)) (d : Dim)
    (winner a b : String) : List (String × DimCounts ℚ) :=
  if winner = "a" then bumpMap points a d 1
  else if winner = "b" then bumpMap points b d 1
  else bumpMap (bumpMap points a d (1 / 2)) b d (1 / 2)

/-- One loop iteration of the win accumulation (three dimensions). -/
def winStep (wins : List (String × DimCounts Int)) (c : Cmp) :
    List (String × DimCounts Int) :=
  accumulateWin
    (accumulateWin
      (accumulateWin wins Dim.novelty c.winNov c.aId c.bId)
      Dim.plausibility c.winPlaus c.aId c.bId)
    Dim.testability c.winTest c.aId c.bId

/-- One loop iteration of the points accumulation (three dimensions). -/
def pointStep (points : List (String × DimCounts ℚ)) (c : Cmp) :
    List (String × DimCounts ℚ) :=
  accumulatePoints
    (accumulatePoints
      (accumulatePoints points Dim.novelty c.winNov c.aId c.bId)
      Dim.plausibility c.winPlaus c.aId c.bId)
    Dim.testability c.winTest c.aId c.bId

/-- Integer win counts per hypothesis after the accumulation loop. -/
def winsMap (ids : List String) (combined : List Cmp) :
    List (String × DimCounts Int) :=
  combined.foldl winStep (ids.map fun hid => (hid, ⟨0, 0, 0⟩))

/-- Rational points per hypothesis after the accumulation loop
(`crew_v2_postprocess.py` only). -/
def pointsMap (ids : List String) (combined : List Cmp) :
    List (String × DimCounts ℚ) :=
  combined.foldl pointStep (ids.map fun hid => (hid, ⟨0, 0, 0⟩))

/-- `divisor = max(len(ids) - 1, 1)`. -/
def divisorOf (ids : List String) : ℚ :=
  ((max ((ids.length : Int) - 1) 1 : Int) : ℚ)

/-- Rounded score quadruple `(novelty, plausibility, testability, overall)`
from a per-dimension raw value. -/
def scoreQuad (raw : Dim → ℚ) (divisor : ℚ) : ℚ × ℚ × ℚ × ℚ :=
  let novelty := 1 + 4 * (raw Dim.novelty / divisor)
  let plausibility := 1 + 4 * (raw Dim.plausibility / divisor)
  let testability := 1 + 4 * (raw Dim.testability / divisor)
  let overall := 35 / 100 * novelty + 30 / 100 * plausibility + 35 / 100 * testability
  (pyRound3 novelty, pyRound3 plausibility, pyRound3 testability, pyRound3 overall)

/-- The `scores` dict `{"novelty": …, "plausibility": …, "testability": …,
"overall": …}`. -/
def scoresDict (q : ℚ × ℚ × ℚ × ℚ) : PyVal :=
  PyVal.dict
    [("novelty", PyVal.float q.1),
     ("plausibility", PyVal.float q.2.1),
     ("testability", PyVal.float q.2.2.1),
     ("overall", PyVal.float q.2.2.2)]

/-- Lexicographic comparison of two rational 4-tuples. -/
def quadLE (x y : ℚ × ℚ × ℚ × ℚ) : Prop :=
  x.1 < y.1 ∨ (x.1 = y.1 ∧ (x.2.1 < y.2.1 ∨ (x.2.1 = y.2.1 ∧
    (x.2.2.1 < y.2.2.1 ∨ (x.2.2.1 = y.2.2.1 ∧ x.2.2.2 ≤ y.2.2.2)))))

instance : DecidableRel quadLE := fun x y => by unfold quadLE; infer_instance

/-- Sort key of `ranked_ids`: `(overall, novelty, testability, plausibility)`. -/
def rankKey (score : String → ℚ × ℚ × ℚ × ℚ) (hid : String) : ℚ × ℚ × ℚ × ℚ :=
  let q := score hid
  (q.2.2.2, q.1, q.2.2.1, q.2.1)

/-- Descending stable sort relation for `sorted(..., reverse=True)`. -/
def rankRel (score : String → ℚ × ℚ × ℚ × ℚ) (x y : String) : Prop :=
  quadLE (rankKey score y) (rankKey score x)

instance (score : String → ℚ × ℚ × ℚ × ℚ) : DecidableRel (rankRel score) :=
  fun x y => by unfold rankRel; infer_instance

/-- Emitted comparison dict. -/
def cmpToDict (c : Cmp) : PyVal :=
  PyVal.dict
    [("hypothesis_a_id", PyVal.str c.aId),
     ("hypothesis_b_id", PyVal.str c.bId),
     ("winner_novelty", PyVal.str c.winNov),
     ("winner_plausibility", PyVal.str c.winPlaus),
     ("winner_testability", PyVal.str c.winTest)]

/-- `by_id[...]` built by a dict comprehension: the **last** item with the id
wins. -/
def byIdLast (hypotheses : List PyVal) (hid : String) : PyVal :=
  (hypotheses.reverse.find? fun h =>
      match h.get "id" with
      | Option.some (PyVal.str s) => s = hid
      | _ => false).getD PyVal.none

/-- The `pairwise_record` dict attached to a hypothesis. -/
def pairwiseRecordFor (hid : String) (combined : List Cmp)
    (w : DimCounts Int) : PyVal :=
  PyVal.dict
    [("comparisons",
      PyVal.list (((combined.filter fun c => hid = c.aId ∨ hid = c.bId).map cmpToDict))),
     ("wins_by_dimension",
      PyVal.dict
        [("novelty", PyVal.int w.novelty),
         ("plausibility", PyVal.int w.plausibility),
         ("testability", PyVal.int w.testability)])]

/-- `ids = [item["id"] for item in hypotheses]` (a missing id key raises). -/
def extractIds (hypotheses : List PyVal) : Except String (List String) :=
  hypotheses.mapM fun item =>
    match item.get "id" with
    | Option.some (PyVal.str s) => Except.ok s
    | _ => Except.error "KeyError: id"

/-- Shared tail of both `_apply_pairwise_ranking` variants, from the raw
per-dimension values (`wins` in `crew_v2.py`, `points` in
`crew_v2_postprocess.py`). -/
def rankAndUpdate (hypotheses : List PyVal) (ids : List String)
    (combined : List Cmp) (raw : String → Dim → ℚ) :
    List String × List PyVal :=
  let divisor := divisorOf ids
  let scoreOf : String → ℚ × ℚ × ℚ × ℚ := fun hid => scoreQuad (raw hid) divisor
  let ranked := List.insertionSort (rankRel scoreOf) ids
  let wins := winsMap ids combined
  let updated := ids.map fun hid =>
    ((byIdLast hypotheses hid).setKey "pairwise_record"
        (pairwiseRecordFor hid combined ((wins.lookup hid).getD ⟨0, 0, 0⟩))).setKey
      "scores" (scoresDict (scoreOf hid))
  (ranked, updated)

/-- `crew_v2._apply_pairwise_ranking`: scores come from the integer win
counts. -/
def applyPairwiseRankingV2 (hypotheses : List PyVal) (rankerOutput : PyVal) :
    Except String (List String × List PyVal) := do
  let ids ← extractIds hypotheses
  match rankerOutput.getd "comparisons" with
  | PyVal.list comps =>
      let combined := combinedComparisons ids comps
      let wins := winsMap ids combined
      Except.ok (rankAndUpdate hypotheses ids combined
        (fun hid d => (((wins.lookup hid).getD ⟨0, 0, 0⟩).get d : Int)))
  | _ => Except.error "Ranker output must contain a comparisons array."

/-- `crew_v2_postprocess._apply_pairwise_ranking`: scores come from the
1.0/0.5/0.0 points. -/
def applyPairwiseRankingPost (hypotheses : List PyVal) (rankerOutput : PyVal) :
    Except String (List String × List PyVal) := do
  let ids ← extractIds hypotheses
  match rankerOutput.getd "comparisons" with
  | PyVal.list comps =>
      let combined := combinedComparisons ids comps
      let points := pointsMap ids combined
      Except.ok (rankAndUpdate hypotheses ids combined
        (fun hid d => ((points.lookup hid).getD ⟨0, 0, 0⟩).get d))
  | _ => Except.error "Ranker output must contain a comparisons array."

/-! ## Template rendering (`crew_v2_stages._render_template`) vs
`str.format` (`crew_v2._run_agent_task`) -/

/-- Python `s.replace(pat, rep)` on character lists (left-to-right,
non-overlapping).  `pat` is non-empty at every call site (`"{" + key + "}"`).
The fuel argument (initialized to the list length) only bounds the
recursion for Lean: every step consumes at least one character, so the
zero-fuel branch is unreachable. -/
def replaceGo (p : Char) (ps rep : List Char) : Nat → List Char → List Char
  | _, [] => []
  | 0, l => l
  | Nat.succ fuel, c :: rest =>
      if (p :: ps).isPrefixOf (c :: rest) then
        rep ++ replaceGo p ps rep fuel (rest.drop ps.length)
      else c :: replaceGo p ps rep fuel rest

/-- Python `s.replace(pat, rep)` (empty pattern unused by the code). -/
def pyReplaceAll (s pat rep : String) : String :=
  match pat.data with
  | [] => s
  | p :: ps => ⟨replaceGo p ps rep.data s.data.length s.data⟩

/-- `crew_v2_stages._render_template`: ordered literal substitution of
`{key}` placeholders. -/
def renderTemplate (template : String) (inputs : List (String × String)) : String :=
  inputs.foldl
    (fun rendered kv => pyReplaceAll rendered ("\x7b" ++ kv.1 ++ "\x7d") kv.2)
    template

/-- Model of CPython `str.format(**inputs)` field handling, sufficient to
observe the replacement-field lookup: `{{`/`}}` are literal braces, a
replacement field's name (up to `}`, `:` or `!`) is resolved against the
keyword arguments and an unknown name raises `KeyError`; a lone `}` raises
`ValueError`.  Conversion/format-spec application after a successful lookup
is elided (the values substituted by the code are plain strings with empty
specs). -/
def pyFormatGo (inputs : List (String × String)) :
    Nat → List Char → Except String (List Char)
  | _, [] => Except.ok []
  | 0, l => Except.ok l
  | Nat.succ fuel, '\x7b' :: '\x7b' :: rest2 => do
      let tail ← pyFormatGo inputs fuel rest2
      Except.ok ('\x7b' :: tail)
  | Nat.succ fuel, '\x7b' :: rest =>
      let nameChars := rest.takeWhile fun c => c ≠ '\x7d' ∧ c ≠ ':' ∧ c ≠ '!'
      let after := rest.drop nameChars.length
      if after.isEmpty then
        Except.error "ValueError: expected brace before end of string"
      else
        match inputs.lookup (String.mk nameChars) with
        | Option.none => Except.error ("KeyError: " ++ String.mk nameChars)
        | Option.some v => do
            let tail ← pyFormatGo inputs fuel ((after.dropWhile (· ≠ '\x7d')).drop 1)
            Except.ok (v.data ++ tail)
  | Nat.succ fuel, '\x7d' :: '\x7d' :: rest2 => do
      let tail ← pyFormatGo inputs fuel rest2
      Except.ok ('\x7d' :: tail)
  | Nat.succ _, '\x7d' :: _ =>
      Except.error "ValueError: single brace encountered in format string"
  | Nat.succ fuel, c :: rest => do
      let tail ← pyFormatGo inputs fuel rest
      Except.ok (c :: tail)

/-- `description_template.format(**inputs)` as used by
`crew_v2._run_agent_task`.  Fuel as in `replaceGo`: each step consumes at
least one character. -/
def pyFormat (template : String) (inputs : List (String × String)) :
    Except String String :=
  (pyFormatGo inputs template.data.length template.data).map String.mk

/-! ## JSON-stage parsing and the tolerant composer stage
(`crew_v2_stages._parse_json_object`, `_run_summa_composer_stage`).
`json.loads` is the stdlib parser, passed in as the oracle `loads`
(`Option.none` models a `JSONDecodeError`). -/

/-- `re.sub(r"^```(?:json)?\s*", "", text)`: strip one leading code fence
(the alternation prefers the tagged form). -/
def stripLeadingFence (tags : List String) (s : String) : String :=
  let chars := s.data
  let rec firstTag : List String → Option (List Char)
    | [] => Option.none
    | t :: ts =>
        if ("```" ++ t).data.isPrefixOf chars then Option.some (("```" ++ t).data)
        else firstTag ts
  match firstTag tags with
  | Option.some pre => ⟨(chars.drop pre.length).dropWhile isPyWS⟩
  | Option.none =>
      if ("```").data.isPrefixOf chars then ⟨(chars.drop 3).dropWhile isPyWS⟩
      else s

/-- `re.sub(r"\s*```$", "", text)`: strip one trailing code fence and the
whitespace run before it. -/
def stripTrailingFence (s : String) : String :=
  let chars := s.data
  if ("```").data.reverse.isPrefixOf chars.reverse then
    ⟨rdropWhileP isPyWS (chars.take (chars.length - 3))⟩
  else s

/-- Fence stripping of `_parse_json_object` (` ```json `-tagged or bare). -/
def stripFencesJson (s : String) : String :=
  stripTrailingFence (stripLeadingFence ["json"] s)

/-- Fence stripping of the composer fallback (` ```markdown `/` ```md ` or
bare). -/
def stripFencesMd (s : String) : String :=
  stripTrailingFence (stripLeadingFence ["markdown", "md"] s)

/-- `re.search(r"\{.*\}", text, flags=re.DOTALL)`: the substring from the
first `{` to the last `}` after it, if any. -/
def extractBraces (text : List Char) : Option (List Char) :=
  match text.dropWhile (· ≠ '\x7b') with
  | [] => Option.none
  | l =>
      match rdropWhileP (· ≠ '\x7d') l with
      | [] => Option.none
      | [_] => Option.none
      | r => Option.some r

/-- `raw[:260].replace("\n", " ")` used in the error message. -/
def snippetOf (raw : String) : String :=
  ⟨(raw.data.take 260).map fun c => if c = '\n' then ' ' else c⟩

/-- `_parse_json_object` (identical in `crew_v2.py` and
`crew_v2_stages.py`), parameterized by the stdlib `json.loads`. -/
def parseJsonObject (loads : String → Option PyVal) (raw : String) :
    Except String PyVal := do
  let text := stripFencesJson (pyStrip raw)
  let payload ←
    match loads text with
    | Option.some p => Except.ok p
    | Option.none =>
        match extractBraces text.data with
        | Option.none =>
            Except.error ("No JSON object found in stage output: " ++ snippetOf raw)
        | Option.some sub =>
            match loads ⟨sub⟩ with
            | Option.some p => Except.ok p
            | Option.none => Except.error "JSONDecodeError"
  match payload with
  | PyVal.dict _ => Except.ok payload
  | _ => Except.error "Stage output must be a JSON object."

/-- `crew_v2_stages._run_summa_composer_stage`, from the raw reasoner output
(prompt plumbing elided: the function's behavior depends only on `raw`). -/
def runSummaComposerStage (loads : String → Option PyVal) (raw : String) :
    Except String PyVal :=
  let parsedOk :=
    match parseJsonObject loads raw with
    | Except.ok parsed =>
        match parsed.get "summa_rendering" with
        | Option.some (PyVal.str s) =>
            if pyStrip s ≠ "" then Option.some parsed else Option.none
        | _ => Option.none
    | Except.error _ => Option.none
  match parsedOk with
  | Option.some parsed => Except.ok parsed
  | Option.none =>
      let cleaned := stripFencesMd (pyStrip raw)
      if cleaned = "" then Except.error "SummaComposer returned empty output."
      else Except.ok (PyVal.dict [("summa_rendering", PyVal.str cleaned)])

/-! ## Contract validation (`v2_contracts.py`) and the citation grounding
check (`semantic_scholar.validate_citations_against_papers`).  The
`jsonschema`-based structural validation reads a schema file through an
external library; it enters the model as the `schemaCheck` oracle.  All
in-repo checks are embedded.  Checks are written in `Except String Unit`
(`error` = raised `ContractValidationError`). -/

/-- `float(x)` for the values the validator reads (scores are floats;
`float(int)` and `float(bool)` also succeed). -/
def floatValOf : PyVal → Except String ℚ
  | PyVal.float q => Except.ok q
  | PyVal.int n => Except.ok (n : ℚ)
  | PyVal.bool b => Except.ok (if b then 1 else 0)
  | _ => Except.error "TypeError: float() argument"

/-- `payload[key]` (a missing key raises `KeyError`, which the validator's
callers do not catch). -/
def getItem (v : PyVal) (k : String) : Except String PyVal :=
  match v.get k with
  | Option.some x => Except.ok x
  | Option.none => Except.error ("KeyError: " ++ k)

/-- `semantic_scholar.validate_citations_against_papers`. -/
def validateCitationsAgainstPapers (citations : List PyVal)
    (papers : List Paper) : List String :=
  let validIds := validIdsOf papers
  let validDois := validDoisOf papers
  (List.enumFrom 1 citations).filterMap fun ci =>
    let citation := ci.2
    let idx := toString ci.1
    let titleOk : Bool :=
      match citation.getd "title" with
      | PyVal.str s => pyStrip s ≠ ""
      | _ => false
    if ¬ titleOk then Option.some ("citation[" ++ idx ++ "] missing non-empty title")
    else
      let authorsOk : Bool :=
        match citation.getd "authors" with
        | PyVal.list l => !l.isEmpty
        | _ => false
      if ¬ authorsOk then Option.some ("citation[" ++ idx ++ "] missing authors list")
      else if ¬ isIntLike (citation.getd "year") then
        Option.some ("citation[" ++ idx ++ "] missing integer year")
      else
        let hasPaperId : Bool :=
          match citation.getd "paper_id" with
          | PyVal.str s => pyStrip s ≠ ""
          | _ => false
        let hasDoi : Bool :=
          match citation.getd "doi" with
          | PyVal.str s => pyStrip s ≠ ""
          | _ => false
        if ¬ hasPaperId ∧ ¬ hasDoi then
          Option.some ("citation[" ++ idx ++ "] missing paper_id/doi")
        else
          let grounded : Bool :=
            (hasPaperId &&
              (match citation.getd "paper_id" with
               | PyVal.str s => decide (pyStrip s ∈ validIds)
               | _ => false)) ||
            (hasDoi &&
              (match citation.getd "doi" with
               | PyVal.str s => decide (normalizeDoi (Option.some s) ∈ validDois)
               | _ => false))
          if ¬ grounded then
            Option.some
              ("citation[" ++ idx ++ "] not grounded in retrieved Semantic Scholar papers")
          else Option.none

/-- `_validate_hypothesis_ids`. -/
def validateHypothesisIds (payload : PyVal) : Except String Unit := do
  let hypotheses ←
    match ← getItem payload "hypotheses" with
    | PyVal.list l => Except.ok l
    | _ => Except.error "TypeError: hypotheses not iterable"
  let ids ← hypotheses.foldlM (fun (acc : List String) h => do
      let hid ←
        match ← getItem h "id" with
        | PyVal.str s => Except.ok s
        | _ => Except.error "TypeError: unhashable id"
      if hid ∈ acc then
        Except.error ("Duplicate hypothesis id found: " ++ hid)
      else Except.ok (acc ++ [hid])) []
  let rankedVals ←
    match ← getItem payload "ranked_hypothesis_ids" with
    | PyVal.list l => Except.ok l
    | _ => Except.error "TypeError: ranked_hypothesis_ids not iterable"
  -- `set(ranked) == set(ids)`: a non-string element can never equal a
  -- string id, so its presence makes the sets unequal, as modelled here.
  if (rankedVals.all fun v =>
        match v with
        | PyVal.str s => decide (s ∈ ids)
        | _ => false) &&
     (ids.all fun i => rankedVals.any fun v =>
        match v with
        | PyVal.str s => decide (s = i)
        | _ => false) then
    Except.ok ()
  else
    Except.error "ranked_hypothesis_ids must contain exactly the hypothesis ids."

/-- `_validate_hypothesis_triplets`. -/
def validateHypothesisTriplets (payload : PyVal) : Except String Unit := do
  let hypotheses ←
    match ← getItem payload "hypotheses" with
    | PyVal.list l => Except.ok l
    | _ => Except.error "TypeError: hypotheses not iterable"
  hypotheses.forM fun h => do
    let hid := match h.get "id" with | Option.some (PyVal.str s) => s | _ => ""
    let objs ←
      match ← getItem h "objections" with
      | PyVal.list l => Except.ok l
      | _ => Except.error "TypeError: objections not iterable"
    let reps ←
      match ← getItem h "replies" with
      | PyVal.list l => Except.ok l
      | _ => Except.error "TypeError: replies not iterable"
    let objNums ← objs.mapM fun o => do
      let n ← getItem o "number"
      if isIntLike n then Except.ok (intValOf n)
      else Except.error "TypeError: objection number not sortable"
    let repNums ← reps.mapM fun r => do
      let n ← getItem r "objection_number"
      if isIntLike n then Except.ok (intValOf n)
      else Except.error "TypeError: reply number not sortable"
    if List.insertionSort (· ≤ ·) objNums ≠ ([1, 2, 3] : List Int) then
      Except.error ("Hypothesis " ++ hid ++ " objections must be numbered 1,2,3.")
    else if List.insertionSort (· ≤ ·) repNums ≠ ([1, 2, 3] : List Int) then
      Except.error ("Hypothesis " ++ hid ++ " replies must target objections 1,2,3.")
    else Except.ok ()

/-- `_validate_pairwise_references`. -/
def validatePairwiseReferences (payload : PyVal) : Except String Unit := do
  let hypotheses ←
    match ← getItem payload "hypotheses" with
    | PyVal.list l => Except.ok l
    | _ => Except.error "TypeError: hypotheses not iterable"
  let validIds ← hypotheses.mapM fun h => do
    match ← getItem h "id" with
    | PyVal.str s => Except.ok s
    | _ => Except.error "TypeError: unhashable id"
  hypotheses.forM fun h => do
    let hid := match h.get "id" with | Option.some (PyVal.str s) => s | _ => ""
    let record ← getItem h "pairwise_record"
    let comps ←
      match ← getItem record "comparisons" with
      | PyVal.list l => Except.ok l
      | _ => Except.error "TypeError: comparisons not iterable"
    comps.forM fun comparison => do
      let a ← getItem comparison "hypothesis_a_id"
      let b ← getItem comparison "hypothesis_b_id"
      -- A non-string id is not in `valid_ids`, so only the two-strings case
      -- reaches the distinctness check.
      match a, b with
      | PyVal.str sa, PyVal.str sb =>
          if sa ∉ validIds ∨ sb ∉ validIds then
            Except.error ("Hypothesis " ++ hid ++
              " pairwise comparison references unknown hypothesis ids.")
          else if sa = sb then
            Except.error ("Hypothesis " ++ hid ++
              " pairwise comparison must involve two distinct ids.")
          else Except.ok ()
      | _, _ =>
          Except.error ("Hypothesis " ++ hid ++
            " pairwise comparison references unknown hypothesis ids.")

/-- `_validate_score_formula` (±0.06 tolerance). -/
def validateScoreFormula (payload : PyVal) : Except String Unit := do
  let hypotheses ←
    match ← getItem payload "hypotheses" with
    | PyVal.list l => Except.ok l
    | _ => Except.error "TypeError: hypotheses not iterable"
  hypotheses.forM fun h => do
    let hid := match h.get "id" with | Option.some (PyVal.str s) => s | _ => ""
    let scores ← getItem h "scores"
    let n ← floatValOf (← getItem scores "novelty")
    let p ← floatValOf (← getItem scores "plausibility")
    let t ← floatValOf (← getItem scores "testability")
    let o ← floatValOf (← getItem scores "overall")
    let expected := 35 / 100 * n + 30 / 100 * p + 35 / 100 * t
    if |o - expected| > 6 / 100 then
      Except.error ("Hypothesis " ++ hid ++ " has inconsistent overall score formula.")
    else Except.ok ()

/-- `_validate_citation_grounding`. -/
def validateCitationGrounding (payload : PyVal) (papers : List Paper) :
    Except String Unit := do
  let hypotheses ←
    match ← getItem payload "hypotheses" with
    | PyVal.list l => Except.ok l
    | _ => Except.error "TypeError: hypotheses not iterable"
  hypotheses.forM fun h => do
    let hid := match h.get "id" with | Option.some (PyVal.str s) => s | _ => ""
    let citations ←
      match ← getItem h "citations" with
      | PyVal.list l => Except.ok l
      | _ => Except.error "TypeError: citations not iterable"
    let issues := validateCitationsAgainstPapers citations papers
    if issues ≠ [] then
      Except.error ("Hypothesis " ++ hid ++ " has invalid citation grounding: " ++
        String.intercalate " | " issues)
    else Except.ok ()

/-- `validate_v2_payload`: jsonschema check (external oracle) then the
embedded in-repo checks. -/
def validateV2Payload (schemaCheck : PyVal → Option String) (payload : PyVal)
    (groundedPapers : Option (List Paper)) : Except String Unit := do
  match schemaCheck payload with
  | Option.some msg => Except.error msg
  | Option.none => Except.ok ()
  validateHypothesisIds payload
  validateHypothesisTriplets payload
  validatePairwiseReferences payload
  validateScoreFormula payload
  match groundedPapers with
  | Option.some papers => validateCitationGrounding payload papers
  | Option.none => Except.ok ()

/-- `_require_nonempty_str`. -/
def requireNonemptyStr (payload : PyVal) (key : String) : Except String String :=
  match payload.get key with
  | Option.some (PyVal.str s) =>
      if pyStrip s ≠ "" then Except.ok (pyStrip s)
      else Except.error ("Field '" ++ key ++ "' must be a non-empty string.")
  | _ => Except.error ("Field '" ++ key ++ "' must be a non-empty string.")

/-- `validate_partial_failure_payload`. -/
def validatePartialFailurePayload (payload : PyVal) : Except String PyVal := do
  let _ ← requireNonemptyStr payload "question"
  let _ ← requireNonemptyStr payload "domain"
  match payload.getd "hypotheses" with
  | PyVal.list _ => Except.ok ()
  | _ => Except.error "Field 'hypotheses' must be a list."
  match payload.getd "ranked_hypothesis_ids" with
  | PyVal.list _ => Except.ok ()
  | _ => Except.error "Field 'ranked_hypothesis_ids' must be a list."
  match payload.getd "stage_outputs" with
  | PyVal.dict _ => Except.ok ()
  | _ => Except.error "Field 'stage_outputs' must be an object."
  match payload.getd "summa_rendering" with
  | PyVal.str _ => Except.ok ()
  | _ => Except.error "Field 'summa_rendering' must be a string."
  let errorPayload ←
    match payload.getd "error" with
    | PyVal.dict kvs => Except.ok (PyVal.dict kvs)
    | _ => Except.error "Field 'error' must be an object."
  let _ ← requireNonemptyStr errorPayload "stage"
  let _ ← requireNonemptyStr errorPayload "message"
  match errorPayload.getd "retry_attempted" with
  | PyVal.bool _ => Except.ok payload
  | _ => Except.error "Field 'error.retry_attempted' must be a boolean."

/-! ## Pipeline controller (`crew_v2.run_summa_v2`)

The reasoner-backed stage calls are routed through an `Oracle`: for each
stage invocation, `runStage stage retryError` yields the parsed JSON object
that `_run_json_stage` would return, or the exception message it would
raise.  Prompt-input plumbing (rendered through the reasoner) is elided: the
oracle is universally quantified, so every reachable behavior is covered.
The network retrieval result and the `jsonschema` structural check are
likewise oracle data.  An uncaught Python exception is an `Except.error`
result of the whole controller. -/

/-- Exception classes the controller distinguishes. -/
inductive PyExc where
  | stageFailure (stage message : String) (retryAttempted : Bool)
  | contractError (message : String)
  | valueError (message : String)
deriving DecidableEq, Repr

/-- `config.Settings` fields used by the embedded controller logic. -/
structure Settings where
  model : String
  verbose : Bool
  defaultDomain : String
  defaultObjective : String
deriving DecidableEq, Repr

/-- `semantic_scholar.RetrievalResult`. -/
structure RetrievalResult where
  status : String
  message : String
  queries : List String
  papers : List Paper
  errors : List String
deriving Repr

/-- `Option`-valued field serialization used by `to_dict`. -/
def optStrVal : Option String → PyVal
  | Option.some s => PyVal.str s
  | Option.none => PyVal.none

def optIntVal : Option Int → PyVal
  | Option.some n => PyVal.int n
  | Option.none => PyVal.none

/-- `SemanticScholarPaper.to_dict`. -/
def paperToDict (p : Paper) : PyVal :=
  PyVal.dict
    [("paper_id", optStrVal p.paperId),
     ("title", PyVal.str p.title),
     ("authors", PyVal.list (p.authors.map PyVal.str)),
     ("year", PyVal.int p.year),
     ("abstract", PyVal.str p.abstract),
     ("citation_count", optIntVal p.citationCount),
     ("doi", optStrVal p.doi),
     ("url", optStrVal p.url),
     ("source_query", PyVal.str p.sourceQuery)]

/-- `RetrievalResult.to_dict`. -/
def retrievalResultToDict (r : RetrievalResult) : PyVal :=
  PyVal.dict
    [("status", PyVal.str r.status),
     ("message", PyVal.str r.message),
     ("queries", PyVal.list (r.queries.map PyVal.str)),
     ("papers", PyVal.list (r.papers.map paperToDict)),
     ("errors", PyVal.list (r.errors.map PyVal.str))]

/-- External collaborators of one pipeline invocation. -/
structure Oracle where
  runStage : String → Option String → Except String PyVal
  retrieve : RetrievalResult
  schemaCheck : PyVal → Option String

/-- The controller's mutable locals captured for the partial-failure
payload. -/
structure CtrlState where
  stageOutputs : PyVal
  hypotheses : List PyVal
  rankedIds : List String
  summaRendering : String

/-- Controller monad: exceptions over the mutable locals (the locals
survive an exception, exactly like Python's `except` handler reading them). -/
abbrev CtrlM := ExceptT PyExc (StateM CtrlState)

/-- `_run_stage_with_retry`: one retry with the first failure's message. -/
def runStageWithRetry (oracle : Oracle) (stageName : String) : Except PyExc PyVal :=
  match oracle.runStage stageName Option.none with
  | Except.ok v => Except.ok v
  | Except.error e1 =>
      match oracle.runStage stageName (Option.some e1) with
      | Except.ok v => Except.ok v
      | Except.error e2 => Except.error (PyExc.stageFailure stageName e2 true)

/-- Record `stage_outputs[name] = payload`. -/
def recordOutput (name : String) (v : PyVal) : CtrlM Unit :=
  modify fun st => { st with stageOutputs := st.stageOutputs.setKey name v }

/-- Lift a stage-with-retry result. -/
def liftStage (r : Except PyExc PyVal) : CtrlM PyVal :=
  match r with
  | Except.ok v => pure v
  | Except.error e => throw e

/-- Lift a helper that raises `ValueError` (uncaught by the controller's
`except _StageFailure` clause). -/
def liftValueError {α : Type} (r : Except String α) : CtrlM α :=
  match r with
  | Except.ok v => pure v
  | Except.error m => throw (PyExc.valueError m)

/-- The inlined body of `_regenerate_for_diversity` (stage run, normalize,
terminal `_StageFailure` when still below 3). -/
def regenerateForDiversity (oracle : Oracle) (papers : List Paper) :
    CtrlM (List PyVal) := do
  let regenerated ← liftStage (runStageWithRetry oracle "hypothesis_generator_diversity_retry")
  recordOutput "hypothesis_generator_diversity_retry" regenerated
  let normalized ← liftValueError (normalizeGeneratedV2 regenerated papers)
  if normalized.length < 3 then
    throw (PyExc.stageFailure "hypothesis_generator_diversity_retry"
      "Diversity retry still produced fewer than 3 distinct hypotheses." true)
  else
    pure normalized

set_option linter.unusedVariables false in
/-- The `try:` body of `run_summa_v2` after input validation.  `top` only
feeds `_top_hypotheses` into the composer prompt inputs, which are elided
with the rest of the prompt plumbing. -/
def runSummaBody (oracle : Oracle) (cleanedQuestion cleanedDomain : String)
    (top : Int) : CtrlM PyVal := do
  let problemMemo ← liftStage (runStageWithRetry oracle "problem_framer")
  recordOutput "problem_framer" problemMemo
  let retrievalResult := oracle.retrieve
  recordOutput "retrieval" (retrievalResultToDict retrievalResult)
  let papers := retrievalResult.papers
  let evidenceMemo ← liftStage (runStageWithRetry oracle "literature_scout")
  recordOutput "literature_scout" evidenceMemo
  let generatorOutput ← liftStage (runStageWithRetry oracle "hypothesis_generator")
  recordOutput "hypothesis_generator" generatorOutput
  let normalized0 ← liftValueError (normalizeGeneratedV2 generatorOutput papers)
  modify fun st => { st with hypotheses := normalized0 }
  let normalized1 ←
    if normalized0.length < 3 then do
      let n ← regenerateForDiversity oracle papers
      modify fun st => { st with hypotheses := n }
      pure n
    else pure normalized0
  let criticOutput ← liftStage (runStageWithRetry oracle "critic")
  recordOutput "critic" criticOutput
  let normalized2 ← liftValueError (normalizeCriticV2 criticOutput normalized1 papers)
  modify fun st => { st with hypotheses := normalized2 }
  let normalized3 ←
    if normalized2.length < 3 then do
      let n ← regenerateForDiversity oracle papers
      modify fun st => { st with hypotheses := n }
      pure n
    else pure normalized2
  let rankerOutput ← liftStage (runStageWithRetry oracle "ranker")
  recordOutput "ranker" rankerOutput
  let rankRes ← liftValueError (applyPairwiseRankingV2 normalized3 rankerOutput)
  let rankedIds := rankRes.1
  let hypothesesWithScores := rankRes.2
  modify fun st => { st with rankedIds := rankedIds, hypotheses := hypothesesWithScores }
  let composerOutput ← liftStage (runStageWithRetry oracle "summa_composer")
  recordOutput "summa_composer" composerOutput
  let summaRendering ← liftValueError (requireNonemptyStr composerOutput "summa_rendering")
  modify fun st => { st with summaRendering := summaRendering }
  let finalPayload := PyVal.dict
    [("question", PyVal.str cleanedQuestion),
     ("domain", PyVal.str cleanedDomain),
     ("hypotheses", PyVal.list hypothesesWithScores),
     ("ranked_hypothesis_ids", PyVal.list (rankedIds.map PyVal.str)),
     ("summa_rendering", PyVal.str summaRendering)]
  match validateV2Payload oracle.schemaCheck finalPayload (Option.some papers) with
  | Except.ok _ => pure finalPayload
  | Except.error msg => do
      -- `except ContractValidationError`: one direct composer re-run; its
      -- own exceptions and the second validation's exception propagate.
      let composerRetry ←
        match oracle.runStage "summa_composer"
            (Option.some ("Final payload validation failed: " ++ msg)) with
        | Except.ok v => pure v
        | Except.error e => throw (PyExc.valueError e)
      recordOutput "summa_composer_retry" composerRetry
      let rendering2 ← liftValueError (requireNonemptyStr composerRetry "summa_rendering")
      let finalPayload2 := finalPayload.setKey "summa_rendering" (PyVal.str rendering2)
      match validateV2Payload oracle.schemaCheck finalPayload2 (Option.some papers) with
      | Except.ok _ => pure finalPayload2
      | Except.error msg2 => throw (PyExc.contractError msg2)

/-- `build_partial_failure_payload`. -/
def buildPartialFailurePayload (question domain : String)
    (stage message : String) (retryAttempted : Bool) (st : CtrlState) :
    Except String PyVal :=
  let payload := PyVal.dict
    [("question", PyVal.str question),
     ("domain", PyVal.str domain),
     ("hypotheses", PyVal.list st.hypotheses),
     ("ranked_hypothesis_ids", PyVal.list (st.rankedIds.map PyVal.str)),
     ("summa_rendering", PyVal.str st.summaRendering),
     ("stage_outputs", st.stageOutputs),
     ("error", PyVal.dict
       [("stage", PyVal.str stage),
        ("message", PyVal.str message),
        ("retry_attempted", PyVal.bool retryAttempted)])]
  validatePartialFailurePayload payload

/-- `(domain or settings.default_domain).strip() or settings.default_domain`. -/
def cleanedDomainOf (domain : Option String) (settings : Settings) : String :=
  let d0 :=
    match domain with
    | Option.some s => if s ≠ "" then s else settings.defaultDomain
    | Option.none => settings.defaultDomain
  if pyStrip d0 ≠ "" then pyStrip d0 else settings.defaultDomain

/-- `(objective or settings.default_objective).strip()`, with the default
substituted when the result is empty. -/
def cleanedObjectiveOf (objective : Option String) (settings : Settings) : String :=
  let o0 :=
    match objective with
    | Option.some s => if s ≠ "" then s else settings.defaultObjective
    | Option.none => settings.defaultObjective
  if pyStrip o0 ≠ "" then pyStrip o0 else settings.defaultObjective

/-- `run_summa_v2`: input validation, the staged body, and the
`except _StageFailure` handler.  `Except.error` is an exception escaping to
the caller. -/
def runSummaV2 (oracle : Oracle) (settings : Settings) (question : String)
    (domain objective : Option String) (top : Int) : Except PyExc PyVal :=
  let cleanedQuestion := pyStrip question
  if cleanedQuestion = "" then
    Except.error (PyExc.valueError "Question cannot be empty.")
  else if ¬ (top = 1 ∨ top = 3) then
    Except.error (PyExc.valueError "top must be 1 or 3 for V2 mode.")
  else
    let cleanedDomain := cleanedDomainOf domain settings
    let _cleanedObjective := cleanedObjectiveOf objective settings
    let init : CtrlState := ⟨PyVal.dict [], [], [], ""⟩
    match (runSummaBody oracle cleanedQuestion cleanedDomain top).run init with
    | (Except.ok payload, _) => Except.ok payload
    | (Except.error e, st) =>
        match e with
        | PyExc.stageFailure stage message retryAttempted =>
            match buildPartialFailurePayload cleanedQuestion cleanedDomain
                stage message retryAttempted st with
            | Except.ok p => Except.ok p
            | Except.error m => Except.error (PyExc.contractError m)
        | other => Except.error other

/-! # Claim theorems -/

/-! ## C9: grounding-fallback helper invariants -/

theorem fallbackGo_length (limit : Nat) :
    ∀ (papers : List Paper) (seen : List String) (count : Nat),
      count < max 1 limit →
      (fallbackGo limit papers seen count).length ≤ max 1 limit - count := by
  intro papers
  induction papers with
  | nil => intro seen count h; simp [fallbackGo]
  | cons p rest ih =>
      intro seen count h
      unfold fallbackGo
      by_cases hk : fallbackKeep p
      · simp only [hk, if_true]
        by_cases hseen : fallbackKey p ∈ seen
        · simp only [hseen, if_true]
          exact ih seen count h
        · simp only [hseen, if_false]
          by_cases hcnt : count + 1 ≥ max 1 limit
          · simp only [hcnt, if_true]
            simp only [List.length_cons, List.length_nil]
            omega
          · simp only [hcnt, if_false, List.length_cons]
            have := ih (fallbackKey p :: seen) (count + 1) (by omega)
            omega
      · simp only [hk, if_false]
        exact ih seen count h

theorem fallbackGo_mem (limit : Nat) :
    ∀ (papers : List Paper) (seen : List String) (count : Nat) (c : PyVal),
      c ∈ fallbackGo limit papers seen count →
      ∃ p ∈ papers, fallbackKeep p ∧ c = fallbackCite p := by
  intro papers
  induction papers with
  | nil => intro seen count c hc; simp [fallbackGo] at hc
  | cons p rest ih =>
      intro seen count c hc
      unfold fallbackGo at hc
      by_cases hk : fallbackKeep p
      · simp only [hk, if_true] at hc
        by_cases hseen : fallbackKey p ∈ seen
        · simp only [hseen, if_true] at hc
          obtain ⟨q, hq, hkq, hcq⟩ := ih seen count c hc
          exact ⟨q, List.mem_cons_of_mem _ hq, hkq, hcq⟩
        · simp only [hseen, if_false] at hc
          by_cases hcnt : count + 1 ≥ max 1 limit
          · simp only [hcnt, if_true, List.mem_singleton] at hc
            exact ⟨p, List.mem_cons_self _ _, hk, hc⟩
          · simp only [hcnt, if_false, List.mem_cons] at hc
            rcases hc with hc | hc
            · exact ⟨p, List.mem_cons_self _ _, hk, hc⟩
            · obtain ⟨q, hq, hkq, hcq⟩ := ih _ _ c hc
              exact ⟨q, List.mem_cons_of_mem _ hq, hkq, hcq⟩
      · simp only [hk, if_false] at hc
        obtain ⟨q, hq, hkq, hcq⟩ := ih seen count c hc
        exact ⟨q, List.mem_cons_of_mem _ hq, hkq, hcq⟩

/-- C9.  Every citation emitted by `_fallback_grounded_citations` (default
`limit=3`, as both call sites use it) originates from a catalog paper with a
non-empty title, at least one author, a truthy `paper_id` or `doi` anchor,
and an integer year within `[1800, 2100]` — the year window being a
condition beyond the spec's Citation invariants — and at most 3 fallback
citations are emitted. -/
theorem fallback_grounded_citations_sound (papers : List Paper) :
    (fallbackGroundedCitations papers).length ≤ 3 ∧
    ∀ c ∈ fallbackGroundedCitations papers,
      ∃ p ∈ papers,
        p.title ≠ "" ∧ p.authors ≠ [] ∧
        (truthyOptStr p.paperId ∨ truthyOptStr p.doi) ∧
        1800 ≤ p.year ∧ p.year ≤ 2100 ∧
        c = fallbackCite p := by
  constructor
  · have := fallbackGo_length 3 papers [] 0 (by norm_num)
    simpa [fallbackGroundedCitations] using this
  · intro c hc
    obtain ⟨p, hp, hkeep, hcite⟩ :=
      fallbackGo_mem 3 papers [] 0 c (by simpa [fallbackGroundedCitations] using hc)
    obtain ⟨ht, hy, ha, hanchor⟩ := hkeep
    exact ⟨p, hp, ht, ha, hanchor, hy.1, hy.2, hcite⟩

/-- Sample catalog entry used by the C9 witness. -/
def samplePaper : Paper :=
  ⟨Option.some "p1", "Paper One", ["A1"], 2020, "", Option.some 10,
    Option.none, Option.none, "q"⟩

/-- Witness for C9 at a concrete one-paper catalog. -/
theorem fallback_grounded_citations_sound_witness :
    ∃ p ∈ [samplePaper],
      p.title ≠ "" ∧ p.authors ≠ [] ∧
      (truthyOptStr p.paperId ∨ truthyOptStr p.doi) ∧
      1800 ≤ p.year ∧ p.year ≤ 2100 ∧
      fallbackCite samplePaper = fallbackCite p :=
  (fallback_grounded_citations_sound [samplePaper]).2 (fallbackCite samplePaper)
    (by
      have h : fallbackGroundedCitations [samplePaper] = [fallbackCite samplePaper] := by
        rfl
      rw [h]
      exact List.mem_singleton_self _)

/-! ## C6: objections/replies filler -/

instance : IsTotal ObjEntry objLE := ⟨fun a b => Int.le_total a.number b.number⟩
instance : IsTrans ObjEntry objLE := ⟨fun _ _ _ h1 h2 => le_trans h1 h2⟩
instance : IsTotal RepEntry repLE := ⟨fun a b => Int.le_total a.objectionNumber b.objectionNumber⟩
instance : IsTrans RepEntry repLE := ⟨fun _ _ _ h1 h2 => le_trans h1 h2⟩

/-- An element can match at most one of the three number predicates, so the
three counts together do not exceed the length. -/
theorem count3_le (l : List ObjEntry) :
    l.countP (fun x => x.number = 1) + l.countP (fun x => x.number = 2) +
      l.countP (fun x => x.number = 3) ≤ l.length := by
  induction l with
  | nil => simp
  | cons a t ih =>
      simp only [List.countP_cons, List.length_cons]
      by_cases h1 : a.number = 1 <;> by_cases h2 : a.number = 2 <;>
        by_cases h3 : a.number = 3 <;> simp [h1, h2, h3] <;> omega

theorem count3_le_rep (l : List RepEntry) :
    l.countP (fun x => x.objectionNumber = 1) + l.countP (fun x => x.objectionNumber = 2) +
      l.countP (fun x => x.objectionNumber = 3) ≤ l.length := by
  induction l with
  | nil => simp
  | cons a t ih =>
      simp only [List.countP_cons, List.length_cons]
      by_cases h1 : a.objectionNumber = 1 <;> by_cases h2 : a.objectionNumber = 2 <;>
        by_cases h3 : a.objectionNumber = 3 <;> simp [h1, h2, h3] <;> omega

/-- `countP` over a cons, phrased on the number key. -/
theorem countP_cons_num (n : Int) (a : ObjEntry) (t : List ObjEntry) :
    (a :: t).countP (fun x => x.number = n) =
      t.countP (fun x => x.number = n) + (if a.number = n then 1 else 0) := by
  rw [List.countP_cons]
  by_cases h : a.number = n <;> simp [h]

/-- The sorted-by-number prefix of length 3 is `[1, 2, 3]` when the counts
of 1 and 2 are exactly one, 3 occurs, and no number is below 1. -/
theorem sorted_triplet_prefix (l : List ObjEntry)
    (hs : List.Sorted objLE l)
    (hge : ∀ x ∈ l, 1 ≤ x.number)
    (h1 : l.countP (fun x => x.number = 1) = 1)
    (h2 : l.countP (fun x => x.number = 2) = 1)
    (h3 : 1 ≤ l.countP (fun x => x.number = 3)) :
    (l.take 3).map ObjEntry.number = [1, 2, 3] := by
  obtain ⟨x1, hx1mem, hx1⟩ : ∃ x ∈ l, x.number = 1 := by
    have hpos : 0 < l.countP (fun x => x.number = 1) := by omega
    have := List.countP_pos_iff.mp hpos
    simpa using this
  cases l with
  | nil => simp at hx1mem
  | cons a t =>
      have hsc := List.sorted_cons.mp hs
      have ha1 : a.number = 1 := by
        rcases List.mem_cons.mp hx1mem with h | h
        · rw [← h]; exact hx1
        · have hle : a.number ≤ x1.number := hsc.1 x1 h
          have := hge a (List.mem_cons_self a t)
          omega
      have hca1 : t.countP (fun x => x.number = 1) = 0 := by
        have h := h1; rw [countP_cons_num, if_pos ha1] at h; omega
      have hca2 : t.countP (fun x => x.number = 2) = 1 := by
        have h := h2; rw [countP_cons_num, if_neg (by omega : ¬ a.number = 2)] at h; omega
      have hca3 : 1 ≤ t.countP (fun x => x.number = 3) := by
        have h := h3; rw [countP_cons_num, if_neg (by omega : ¬ a.number = 3)] at h; omega
      have hge2 : ∀ x ∈ t, 2 ≤ x.number := by
        intro x hx
        have hx1le := hge x (List.mem_cons_of_mem a hx)
        have hne : x.number ≠ 1 := by
          intro hcontra
          have : 0 < t.countP (fun x => x.number = 1) :=
            List.countP_pos_iff.mpr ⟨x, hx, by simpa using hcontra⟩
          omega
        omega
      obtain ⟨x2, hx2mem, hx2⟩ : ∃ x ∈ t, x.number = 2 := by
        have hpos : 0 < t.countP (fun x => x.number = 2) := by omega
        have := List.countP_pos_iff.mp hpos
        simpa using this
      cases t with
      | nil => simp at hx2mem
      | cons b u =>
          have hsc2 := List.sorted_cons.mp hsc.2
          have hb2 : b.number = 2 := by
            rcases List.mem_cons.mp hx2mem with h | h
            · rw [← h]; exact hx2
            · have hle : b.number ≤ x2.number := hsc2.1 x2 h
              have := hge2 b (List.mem_cons_self b u)
              omega
          have hcb2 : u.countP (fun x => x.number = 2) = 0 := by
            have h := hca2; rw [countP_cons_num, if_pos hb2] at h; omega
          have hcb3 : 1 ≤ u.countP (fun x => x.number = 3) := by
            have h := hca3; rw [countP_cons_num, if_neg (by omega : ¬ b.number = 3)] at h
            omega
          have hge3 : ∀ x ∈ u, 3 ≤ x.number := by
            intro x hx
            have hx2le := hge2 x (List.mem_cons_of_mem b hx)
            have hne : x.number ≠ 2 := by
              intro hcontra
              have : 0 < u.countP (fun x => x.number = 2) :=
                List.countP_pos_iff.mpr ⟨x, hx, by simpa using hcontra⟩
              omega
            omega
          obtain ⟨x3, hx3mem, hx3⟩ : ∃ x ∈ u, x.number = 3 := by
            have hpos : 0 < u.countP (fun x => x.number = 3) := by omega
            have := List.countP_pos_iff.mp hpos
            simpa using this
          cases u with
          | nil => simp at hx3mem
          | cons c v =>
              have hsc3 := List.sorted_cons.mp hsc2.2
              have hc3 : c.number = 3 := by
                rcases List.mem_cons.mp hx3mem with h | h
                · rw [← h]; exact hx3
                · have hle : c.number ≤ x3.number := hsc3.1 x3 h
                  have := hge3 c (List.mem_cons_self c v)
                  omega
              simp [ha1, hb2, hc3]

/-- Any element of the filled list is a kept entry or a placeholder with
number in 1..3. -/
theorem fillTriplets_mem (placeholder : Int → String) (kept : List ObjEntry) :
    ∀ x ∈ (List.insertionSort objLE kept) ++
      ((([1, 2, 3] : List Int).filter
          (fun n => ¬ (List.insertionSort objLE kept).any (fun item => item.number = n))).map
        (fun n => (⟨n, placeholder n⟩ : ObjEntry))),
      x ∈ kept ∨ x.number ∈ ([1, 2, 3] : List Int) := by
  intro x hx
  rcases List.mem_append.mp hx with h | h
  · exact Or.inl ((List.perm_insertionSort objLE kept).mem_iff.mp h)
  · right
    obtain ⟨n, hn, hmap⟩ := List.mem_map.mp h
    have := List.mem_of_mem_filter hn
    rw [← hmap]
    exact this

theorem fillTriplets_length (placeholder : Int → String) (kept : List ObjEntry) :
    (fillTriplets placeholder kept).length = 3 := by
  unfold fillTriplets
  have hperm1 : (List.insertionSort objLE kept).Perm kept := List.perm_insertionSort _ _
  set entries := List.insertionSort objLE kept with hentries
  set fl := (([1, 2, 3] : List Int).filter
      (fun n => ¬ entries.any (fun item => item.number = n))) with hfl
  set withMissing := entries ++ fl.map (fun n => (⟨n, placeholder n⟩ : ObjEntry))
    with hwm
  have hlen : (List.insertionSort objLE withMissing).length =
      entries.length + fl.length := by
    rw [(List.perm_insertionSort objLE withMissing).length_eq, hwm,
      List.length_append, List.length_map]
  have hcov : ∀ n : Int, entries.any (fun x => x.number = n) = true →
      1 ≤ kept.countP (fun x => x.number = n) := by
    intro n hn
    obtain ⟨x, hx, hpx⟩ := List.any_eq_true.mp hn
    exact List.countP_pos_iff.mpr ⟨x, hperm1.mem_iff.mp hx, hpx⟩
  have hsum := count3_le kept
  have hke : entries.length = kept.length := hperm1.length_eq
  have hgoal : 3 ≤ entries.length + fl.length := by
    rw [hke]
    by_cases hc1 : entries.any (fun x => x.number = 1) = true <;>
      by_cases hc2 : entries.any (fun x => x.number = 2) = true <;>
      by_cases hc3 : entries.any (fun x => x.number = 3) = true
    all_goals try have e1 := hcov 1 hc1
    all_goals try have e2 := hcov 2 hc2
    all_goals try have e3 := hcov 3 hc3
    all_goals simp [hfl, List.filter, hc1, hc2, hc3]
    all_goals omega
  rw [List.length_take, hlen]
  omega

theorem countP_num_eq_count (kept : List ObjEntry) (n : Int) :
    kept.countP (fun x => x.number = n) = (kept.map ObjEntry.number).count n := by
  have h1 : (kept.map ObjEntry.number).count n =
      (kept.map ObjEntry.number).countP (fun m => m == n) := rfl
  rw [h1, List.countP_map]
  apply List.countP_congr
  intro x _
  by_cases h : x.number = n <;> simp [h]

theorem fillTriplets_numbers (placeholder : Int → String) (kept : List ObjEntry)
    (hge : ∀ x ∈ kept, 1 ≤ x.number)
    (hnd : (kept.map ObjEntry.number).Nodup) :
    (fillTriplets placeholder kept).map ObjEntry.number = [1, 2, 3] := by
  have hperm1 : (List.insertionSort objLE kept).Perm kept := List.perm_insertionSort _ _
  unfold fillTriplets
  set entries := List.insertionSort objLE kept with hentries
  set fl := (([1, 2, 3] : List Int).filter
      (fun n => ¬ entries.any (fun item => item.number = n))) with hfl
  set withMissing := entries ++ fl.map (fun n => (⟨n, placeholder n⟩ : ObjEntry))
    with hwm
  have hperm2 : (List.insertionSort objLE withMissing).Perm withMissing :=
    List.perm_insertionSort _ _
  have hcnt_le : ∀ n : Int, kept.countP (fun x => x.number = n) ≤ 1 := by
    intro n
    rw [countP_num_eq_count]
    exact List.nodup_iff_count_le_one.mp hnd n
  have hcov_iff : ∀ n : Int,
      entries.any (fun x => x.number = n) = true ↔
        1 ≤ kept.countP (fun x => x.number = n) := by
    intro n
    constructor
    · intro hn
      obtain ⟨x, hx, hpx⟩ := List.any_eq_true.mp hn
      exact List.countP_pos_iff.mpr ⟨x, hperm1.mem_iff.mp hx, hpx⟩
    · intro hn
      have hpos : 0 < kept.countP (fun x => x.number = n) := by omega
      obtain ⟨x, hx, hpx⟩ := List.countP_pos_iff.mp hpos
      exact List.any_eq_true.mpr ⟨x, hperm1.mem_iff.mpr hx, hpx⟩
  have hmissing_cnt : ∀ n ∈ ([1, 2, 3] : List Int),
      (fl.map (fun m => (⟨m, placeholder m⟩ : ObjEntry))).countP
          (fun x => x.number = n) =
        if entries.any (fun x => x.number = n) = true then 0 else 1 := by
    intro n hn
    rw [List.countP_map]
    have hcomp : ((fun x : ObjEntry => decide (x.number = n)) ∘
        (fun m : Int => (⟨m, placeholder m⟩ : ObjEntry))) =
        (fun m : Int => decide (m = n)) := by
      funext m
      simp
    rw [hcomp, hfl, List.countP_filter]
    fin_cases hn <;>
      by_cases hcov : entries.any (fun x => x.number = 1) = true <;>
      by_cases hcov2 : entries.any (fun x => x.number = 2) = true <;>
      by_cases hcov3 : entries.any (fun x => x.number = 3) = true <;>
      simp [List.countP_cons, List.countP_nil, hcov, hcov2, hcov3,
        -List.any_eq_true] <;>
      first
        | exact (by simpa using hcov)
        | exact (by simpa using hcov2)
        | exact (by simpa using hcov3)
  have hcount : ∀ n ∈ ([1, 2, 3] : List Int),
      (List.insertionSort objLE withMissing).countP (fun x => x.number = n) = 1 := by
    intro n hn
    rw [hperm2.countP_eq, hwm, List.countP_append, hperm1.countP_eq,
      hmissing_cnt n hn]
    by_cases hcov : entries.any (fun x => x.number = n) = true
    · have h1 := (hcov_iff n).mp hcov
      have h2 := hcnt_le n
      rw [if_pos hcov]
      omega
    · have h0 : kept.countP (fun x => x.number = n) = 0 := by
        by_contra hne
        exact hcov ((hcov_iff n).mpr (by omega))
      rw [if_neg hcov]
      omega
  apply sorted_triplet_prefix
  · exact List.sorted_insertionSort _ _
  · intro x hx
    rcases fillTriplets_mem placeholder kept x (hperm2.mem_iff.mp hx) with h | h
    · exact hge x h
    · simp only [List.mem_cons, List.not_mem_nil, or_false] at h
      rcases h with h | h | h <;> omega
  · exact hcount 1 (by norm_num)
  · exact hcount 2 (by norm_num)
  · exact le_of_eq (hcount 3 (by norm_num)).symm

/-- Raw objection list whose single kept entry is numbered 0. -/
def badObjRaw : PyVal :=
  PyVal.list [PyVal.dict [("number", PyVal.int 0), ("text", PyVal.str "x")]]

/-- C6 counterexample: on a raw objection numbered 0, the filler returns
numbers `[0, 1, 2]`, not the claimed set `{1, 2, 3}` (3 is absent), refuting
the claim as stated for arbitrary integer inputs. -/
theorem ensure_objections_numbers_counterexample :
    (ensureObjEntries badObjRaw).map ObjEntry.number = [0, 1, 2] ∧
    (3 : Int) ∉ (ensureObjEntries badObjRaw).map ObjEntry.number := by
  constructor
  · rfl
  · decide

/-- C6 (amended).  For every input (list or not), `_ensure_objections` and
`_ensure_replies` return exactly three entries, and on a non-list input the
three specified placeholders in order; the number sets are exactly
`{1, 2, 3}` provided every retained entry's number is at least 1 and the
retained numbers are pairwise distinct. -/
theorem ensure_objections_replies_filler (rawO rawR : PyVal) :
    (ensureObjections rawO).length = 3 ∧
    (ensureReplies rawR).length = 3 ∧
    ensureObjEntries PyVal.none =
      [⟨1, objPlaceholder 1⟩, ⟨2, objPlaceholder 2⟩, ⟨3, objPlaceholder 3⟩] ∧
    ensureRepEntries PyVal.none =
      [⟨1, repPlaceholder 1⟩, ⟨2, repPlaceholder 2⟩, ⟨3, repPlaceholder 3⟩] ∧
    ((∀ x ∈ collectObjections rawO, 1 ≤ x.number) →
      ((collectObjections rawO).map ObjEntry.number).Nodup →
      (ensureObjEntries rawO).map ObjEntry.number = [1, 2, 3]) ∧
    ((∀ x ∈ collectReplies rawR, 1 ≤ x.objectionNumber) →
      ((collectReplies rawR).map RepEntry.objectionNumber).Nodup →
      (ensureRepEntries rawR).map RepEntry.objectionNumber = [1, 2, 3]) := by
  refine ⟨?_, ?_, ?_, ?_, ?_, ?_⟩
  · rw [ensureObjections, List.length_map]
    exact fillTriplets_length _ _
  · rw [ensureReplies, List.length_map, ensureRepEntries, List.length_map]
    exact fillTriplets_length _ _
  · rfl
  · rfl
  · intro h1 h2
    exact fillTriplets_numbers objPlaceholder _ h1 h2
  · intro h1 h2
    have hk : ∀ x ∈ (collectReplies rawR).map repAsObj, 1 ≤ x.number := by
      intro x hx
      obtain ⟨r, hr, rfl⟩ := List.mem_map.mp hx
      exact h1 r hr
    have hnodup : (((collectReplies rawR).map repAsObj).map ObjEntry.number).Nodup := by
      rw [List.map_map]
      exact h2
    have hres := fillTriplets_numbers repPlaceholder _ hk hnodup
    rw [ensureRepEntries, List.map_map]
    exact hres

/-- Concrete objections input for the C6 witness (numbers 2 and 7). -/
def wRawObj : PyVal :=
  PyVal.list
    [PyVal.dict [("number", PyVal.int 2), ("text", PyVal.str "b")],
     PyVal.dict [("number", PyVal.int 7), ("text", PyVal.str "c")]]

/-- Concrete replies input for the C6 witness. -/
def wRawRep : PyVal :=
  PyVal.list [PyVal.dict [("objection_number", PyVal.int 3), ("text", PyVal.str "r")]]

/-- Witness for the amended C6 at concrete inputs. -/
theorem ensure_objections_replies_filler_witness :
    (ensureObjections wRawObj).length = 3 ∧
    (ensureReplies wRawRep).length = 3 ∧
    (ensureObjEntries wRawObj).map ObjEntry.number = [1, 2, 3] ∧
    (ensureRepEntries wRawRep).map RepEntry.objectionNumber = [1, 2, 3] := by
  have h := ensure_objections_replies_filler wRawObj wRawRep
  exact ⟨h.1, h.2.1, h.2.2.2.2.1 (by decide) (by decide),
    h.2.2.2.2.2 (by decide) (by decide)⟩

/-! ## C7: exactly one comparison per unordered pair -/

/-- Unordered-pair key of a comparison. -/
def cmpKey (c : Cmp) : String × String := sortPair c.aId c.bId

theorem sortPair_fst_le_snd (x y : String) : (sortPair x y).1 ≤ (sortPair x y).2 := by
  unfold sortPair
  by_cases h : x ≤ y
  · simp [h]
  · have := le_of_not_le h
    simpa [h]

theorem sortPair_comm (x y : String) : sortPair x y = sortPair y x := by
  unfold sortPair
  by_cases h1 : x ≤ y <;> by_cases h2 : y ≤ x
  · have := le_antisymm h1 h2
    simp [h1, h2, this]
  · simp [h1, h2]
  · simp [h1, h2]
  · exact absurd (le_total x y) (by simp [h1, h2])

theorem sortPair_of_le {x y : String} (h : x ≤ y) : sortPair x y = (x, y) := by
  simp [sortPair, h]

theorem upairs_mem_of_mem (ids : List String) :
    ∀ i ∈ ids, ∀ j ∈ ids, i ≠ j → sortPair i j ∈ upairs ids := by
  induction ids with
  | nil => intro i hi; simp at hi
  | cons x xs ih =>
      intro i hi j hj hij
      rcases List.mem_cons.mp hi with rfl | hi'
      · rcases List.mem_cons.mp hj with rfl | hj'
        · exact absurd rfl hij
        · exact List.mem_append.mpr (Or.inl (List.mem_map.mpr ⟨j, hj', rfl⟩))
      · rcases List.mem_cons.mp hj with rfl | hj'
        · exact List.mem_append.mpr (Or.inl (List.mem_map.mpr ⟨i, hi',
            (sortPair_comm i j).symm⟩))
        · exact List.mem_append.mpr (Or.inr (ih i hi' j hj' hij))

theorem upairs_mem_spec (ids : List String) (hnd : ids.Nodup) :
    ∀ p ∈ upairs ids, p.1 ∈ ids ∧ p.2 ∈ ids ∧ p.1 ≠ p.2 ∧ p.1 ≤ p.2 := by
  induction ids with
  | nil => intro p hp; simp [upairs] at hp
  | cons x xs ih =>
      intro p hp
      rcases List.mem_append.mp hp with h | h
      · obtain ⟨y, hy, rfl⟩ := List.mem_map.mp h
        have hxy : x ≠ y := fun hc => (List.nodup_cons.mp hnd).1 (hc ▸ hy)
        have hfl := sortPair_fst_le_snd x y
        have hmem : (sortPair x y).1 ∈ x :: xs ∧ (sortPair x y).2 ∈ x :: xs := by
          unfold sortPair
          by_cases hle : x ≤ y <;>
            simp [hle, List.mem_cons, hy]
        refine ⟨hmem.1, hmem.2, ?_, hfl⟩
        unfold sortPair
        by_cases hle : x ≤ y <;> simp [hle, hxy]
        exact fun hc => hxy hc.symm
      · obtain ⟨h1, h2, h3, h4⟩ := ih (List.nodup_cons.mp hnd).2 p h
        exact ⟨List.mem_cons_of_mem _ h1, List.mem_cons_of_mem _ h2, h3, h4⟩

/-- Phase-1 invariants of the comparison-normalization loop. -/
theorem normCompsGo_spec (ids : List String) :
    ∀ (comps : List PyVal) (seen : List (String × String)),
      ((normCompsGo ids comps seen).1.map cmpKey).Nodup ∧
      (∀ k ∈ (normCompsGo ids comps seen).1.map cmpKey, k ∉ seen) ∧
      (∀ k, k ∈ (normCompsGo ids comps seen).2 ↔
        k ∈ (normCompsGo ids comps seen).1.map cmpKey ∨ k ∈ seen) ∧
      (∀ c ∈ (normCompsGo ids comps seen).1,
        c.aId ∈ ids ∧ c.bId ∈ ids ∧ c.aId ≠ c.bId) := by
  intro comps
  induction comps with
  | nil =>
      intro seen
      refine ⟨by simp [normCompsGo], by simp [normCompsGo], ?_, by simp [normCompsGo]⟩
      intro k
      simp [normCompsGo]
  | cons item rest ih =>
      intro seen
      match hitem : item with
      | PyVal.dict kvs =>
          simp only [normCompsGo]
          set a := asNonemptyText ((PyVal.dict kvs).getd "hypothesis_a_id") "" with ha
          set b := asNonemptyText ((PyVal.dict kvs).getd "hypothesis_b_id") "" with hb
          by_cases hdrop : a = "" ∨ b = "" ∨ a = b ∨ a ∉ ids ∨ b ∉ ids
          · simpa [hdrop] using ih seen
          · simp only [hdrop, if_false]
            by_cases hseen : sortPair a b ∈ seen
            · simpa [hseen] using ih seen
            · simp only [hseen, if_false]
              obtain ⟨ihnd, ihnotin, ihiff, ihids⟩ := ih (sortPair a b :: seen)
              push_neg at hdrop
              obtain ⟨ha0, hb0, hab, haid, hbid⟩ := hdrop
              refine ⟨?_, ?_, ?_, ?_⟩
              · simp only [List.map_cons, List.nodup_cons]
                constructor
                · intro hc
                  exact (ihnotin _ hc) (List.mem_cons_self _ _)
                · exact ihnd
              · intro k hk
                simp only [List.map_cons, List.mem_cons] at hk
                rcases hk with rfl | hk
                · exact hseen
                · intro hkseen
                  exact (ihnotin k hk) (List.mem_cons_of_mem _ hkseen)
              · intro k
                rw [ihiff k]
                simp only [List.map_cons, List.mem_cons, cmpKey]
                tauto
              · intro c hc
                rcases List.mem_cons.mp hc with rfl | hc
                · exact ⟨haid, hbid, hab⟩
                · exact ihids c hc
      | PyVal.none => simpa [normCompsGo] using ih seen
      | PyVal.bool v => simpa [normCompsGo] using ih seen
      | PyVal.int v => simpa [normCompsGo] using ih seen
      | PyVal.float v => simpa [normCompsGo] using ih seen
      | PyVal.str v => simpa [normCompsGo] using ih seen
      | PyVal.list v => simpa [normCompsGo] using ih seen

/-- For a duplicate-free list of pair keys, the occurrence count of a key is
its membership indicator. -/
theorem countP_key_nodup (l : List (String × String)) (k : String × String)
    (h : l.Nodup) :
    l.countP (fun x => x = k) = if k ∈ l then 1 else 0 := by
  induction l with
  | nil => simp
  | cons a t ih =>
      obtain ⟨hna, hnt⟩ := List.nodup_cons.mp h
      rw [List.countP_cons]
      by_cases hak : a = k
      · subst hak
        simp only [List.mem_cons, true_or, if_true]
        rw [ih hnt, if_neg hna]
        simp
      · rw [ih hnt]
        simp only [List.mem_cons]
        by_cases hkt : k ∈ t <;> simp [hak, hkt, Ne.symm hak]

/-- C7.  After comparison normalization plus synthetic all-tie insertion,
the combined comparison list contains exactly one comparison for every
unordered pair of distinct hypothesis ids, and every comparison in it joins
two distinct known ids. -/
theorem pairwise_comparison_set_complete (ids : List String) (comps : List PyVal)
    (hnd : ids.Nodup) :
    (∀ i ∈ ids, ∀ j ∈ ids, i ≠ j →
      (combinedComparisons ids comps).countP (fun c => cmpKey c = sortPair i j) = 1) ∧
    (∀ c ∈ combinedComparisons ids comps,
      c.aId ∈ ids ∧ c.bId ∈ ids ∧ c.aId ≠ c.bId) := by
  obtain ⟨hnodupN, hnotin, hiff, hids⟩ := normCompsGo_spec ids comps []
  have hiff' : ∀ k, k ∈ (normCompsGo ids comps []).2 ↔
      k ∈ (normCompsGo ids comps []).1.map cmpKey := by
    intro k
    rw [hiff k]
    simp
  have hexp_mem : ∀ p, p ∈ expectedPairs ids ↔ p ∈ upairs ids := by
    intro p
    unfold expectedPairs
    rw [(List.perm_insertionSort _ _).mem_iff, List.mem_dedup]
  have hexp_nodup : (expectedPairs ids).Nodup := by
    unfold expectedPairs
    exact ((List.perm_insertionSort _ _).nodup_iff).mpr (List.nodup_dedup _)
  constructor
  · intro i hi j hj hij
    unfold combinedComparisons
    rw [List.countP_append]
    have h1 : (normCompsGo ids comps []).1.countP (fun c => cmpKey c = sortPair i j) =
        ((normCompsGo ids comps []).1.map cmpKey).countP (fun k => k = sortPair i j) := by
      rw [List.countP_map]
      apply List.countP_congr
      intro c _
      rfl
    have h2 : ((((expectedPairs ids).filter
          (fun p => p ∉ (normCompsGo ids comps []).2)).map tieCmp).countP
            (fun c => cmpKey c = sortPair i j)) =
        ((expectedPairs ids).filter
          (fun p => p ∉ (normCompsGo ids comps []).2)).countP
            (fun p => p = sortPair i j) := by
      rw [List.countP_map]
      apply List.countP_congr
      intro p hp
      have hp' : p ∈ expectedPairs ids := List.mem_of_mem_filter hp
      have hle : p.1 ≤ p.2 := (upairs_mem_spec ids hnd p ((hexp_mem p).mp hp')).2.2.2
      have hk : cmpKey (tieCmp p) = p := by
        unfold cmpKey tieCmp
        exact sortPair_of_le hle
      simp only [Function.comp]
      rw [hk]
    rw [h1, h2, countP_key_nodup _ _ hnodupN,
      countP_key_nodup _ _ (hexp_nodup.filter _)]
    have hk0_exp : sortPair i j ∈ expectedPairs ids :=
      (hexp_mem _).mpr (upairs_mem_of_mem ids i hi j hj hij)
    by_cases hk0 : sortPair i j ∈ (normCompsGo ids comps []).1.map cmpKey
    · have hout : sortPair i j ∉ (expectedPairs ids).filter
          (fun p => p ∉ (normCompsGo ids comps []).2) := by
        intro hmem
        have := (List.mem_filter.mp hmem).2
        simp only [decide_eq_true_eq] at this
        exact this ((hiff' _).mpr hk0)
      rw [if_pos hk0, if_neg hout]
    · have hin : sortPair i j ∈ (expectedPairs ids).filter
          (fun p => p ∉ (normCompsGo ids comps []).2) := by
        apply List.mem_filter.mpr
        refine ⟨hk0_exp, ?_⟩
        simp only [decide_eq_true_eq]
        intro hc
        exact hk0 ((hiff' _).mp hc)
      rw [if_neg hk0, if_pos hin]
  · intro c hc
    unfold combinedComparisons at hc
    rcases List.mem_append.mp hc with h | h
    · exact hids c h
    · obtain ⟨p, hp, rfl⟩ := List.mem_map.mp h
      have hp' : p ∈ expectedPairs ids := List.mem_of_mem_filter hp
      obtain ⟨h1, h2, h3, _⟩ := upairs_mem_spec ids hnd p ((hexp_mem p).mp hp')
      exact ⟨h1, h2, h3⟩

/-- Witness for C7 with two hypothesis ids and an empty ranker output. -/
theorem pairwise_comparison_set_complete_witness :
    (combinedComparisons ["h1", "h2"] []).countP
        (fun c => cmpKey c = sortPair "h1" "h2") = 1 ∧
    (∀ c ∈ combinedComparisons ["h1", "h2"] [],
      c.aId ∈ ["h1", "h2"] ∧ c.bId ∈ ["h1", "h2"] ∧ c.aId ≠ c.bId) := by
  have h := pairwise_comparison_set_complete ["h1", "h2"] [] (by decide)
  exact ⟨h.1 "h1" (by decide) "h2" (by decide) (by decide), h.2⟩

/-! ## C8: citation sanitizer idempotence -/

/-- Catalog for the C8 counterexample. -/
def c8paper : Paper :=
  ⟨Option.some "p1", "T", ["A"], 2020, "", Option.none, Option.none, Option.none, "q"⟩

/-- Candidate list whose only citation has a whitespace-only author entry. -/
def c8badCitations : PyVal :=
  PyVal.list
    [PyVal.dict
      [("title", PyVal.str "T"), ("authors", PyVal.list [PyVal.str " "]),
       ("year", PyVal.int 2020), ("paper_id", PyVal.str "p1")]]

/-- What one sanitizer pass emits for it: the author entry strips to nothing. -/
def c8onceResult : PyVal :=
  PyVal.dict
    [("title", PyVal.str "T"), ("authors", PyVal.list []),
     ("year", PyVal.int 2020), ("paper_id", PyVal.str "p1")]

/-- C8 counterexample: a whitespace-only author passes the first pass's
non-empty-list check but is cleaned to an empty list, which the second pass
rejects, so sanitizing twice differs from sanitizing once. -/
theorem sanitize_citations_not_idempotent :
    sanitizeCitations c8badCitations [c8paper] = [c8onceResult] ∧
    sanitizeCitations (PyVal.list (sanitizeCitations c8badCitations [c8paper]))
        [c8paper] = [] ∧
    sanitizeCitations (PyVal.list (sanitizeCitations c8badCitations [c8paper]))
        [c8paper] ≠ sanitizeCitations c8badCitations [c8paper] := by
  have h1 : sanitizeCitations c8badCitations [c8paper] = [c8onceResult] := rfl
  have h2 : sanitizeCitations (PyVal.list (sanitizeCitations c8badCitations [c8paper]))
      [c8paper] = [] := rfl
  refine ⟨h1, h2, ?_⟩
  intro h
  rw [h2, h1] at h
  exact List.noConfusion h

/-- Cleaning already-clean author strings is the identity. -/
theorem cleanAuthors_self (auths : List String)
    (h : ∀ a ∈ auths, pyStrip a = a ∧ a ≠ "") :
    ((auths.map PyVal.str).map fun it => pyStrip (pyStr it)).filter (· ≠ "") = auths := by
  rw [List.map_map]
  have hmap : auths.map ((fun it => pyStrip (pyStr it)) ∘ PyVal.str) = auths := by
    have : ∀ a ∈ auths, ((fun it => pyStrip (pyStr it)) ∘ PyVal.str) a = a := by
      intro a ha
      exact (h a ha).1
    rw [List.map_congr_left this]
    simp
  rw [hmap]
  apply List.filter_eq_self.mpr
  intro a ha
  simpa using (h a ha).2

theorem mkSanPayload_get_authors (t : String) (auths : List String) (yr : PyVal)
    (pid doi : Option String) :
    (mkSanPayload t auths yr pid doi).get "authors" =
      Option.some (PyVal.list (auths.map PyVal.str)) := by
  simp [mkSanPayload, PyVal.get, List.lookup]

/-- `parseCitation` re-reads a canonical payload as its own fields. -/
theorem parseCitation_mkSanPayload (t : String) (auths : List String) (yr : PyVal)
    (pid doi : Option String)
    (ht0 : t ≠ "") (ht : pyStrip t = t) (hane : auths ≠ [])
    (hy : isIntLike yr = true) :
    parseCitation (mkSanPayload t auths yr pid doi) =
      Option.some (t, auths.map PyVal.str, yr, pid, doi) := by
  rcases pid with _ | s <;> rcases doi with _ | s2 <;>
    simp [parseCitation, mkSanPayload, PyVal.getd, PyVal.get, List.lookup, ht, ht0,
      hane, hy]

theorem parseCitation_checks (c : PyVal) (t : String) (auths : List PyVal)
    (yr : PyVal) (pid doi : Option String)
    (h : parseCitation c = Option.some (t, auths, yr, pid, doi)) :
    pyStrip t ≠ "" ∧ auths.isEmpty = false ∧ isIntLike yr = true := by
  unfold parseCitation at h
  repeat' split at h
  all_goals simp at h
  all_goals obtain ⟨h1, h2, h3, h4, h5⟩ := h
  all_goals subst h1
  all_goals subst h2
  all_goals subst h3
  all_goals refine ⟨by assumption, ?_, ?_⟩ <;> simp_all

theorem cleanedAuthors_facts (auths0 : List PyVal) :
    ∀ a ∈ (auths0.map fun item => pyStrip (pyStr item)).filter
        (fun x => !decide (x = "")),
      pyStrip a = a ∧ a ≠ "" := by
  intro a ha
  have hmem := List.mem_of_mem_filter ha
  have hne : a ≠ "" := by simpa using List.of_mem_filter ha
  obtain ⟨x, _, rfl⟩ := List.mem_map.mp hmem
  exact ⟨pyStrip_idem _, hne⟩

/-- Every payload the sanitizer emits is canonical: stripped non-empty
title, stripped non-empty author strings, int-like year, validated stripped
anchors, and the dedup key derived from them. -/
theorem sanitizeOne_shape (ids dois : List String) (c : PyVal) (k : String) (p : PyVal)
    (h : sanitizeOne ids dois c = Option.some (k, p)) :
    ∃ t auths yr pid doi,
      p = mkSanPayload t auths yr pid doi ∧
      pyStrip t = t ∧ t ≠ "" ∧
      (∀ a ∈ auths, pyStrip a = a ∧ a ≠ "") ∧
      isIntLike yr = true ∧
      (∀ s, pid = Option.some s → pyStrip s = s ∧ s ∈ ids ∧ k = s) ∧
      (∀ s, doi = Option.some s →
        pyStrip s = s ∧ normalizeDoi (Option.some s) ∈ dois) ∧
      (pid = Option.none →
        ∃ s, doi = Option.some s ∧ k = "doi:" ++ normalizeDoi (Option.some s)) := by
  unfold sanitizeOne at h
  rcases hpc : parseCitation c with _ | ⟨t0, auths0, yr0, pid0, doi0⟩
  · rw [hpc] at h
    exact absurd h (by simp)
  · rw [hpc] at h
    obtain ⟨hts, _, hyr⟩ := parseCitation_checks c t0 auths0 yr0 pid0 doi0 hpc
    rcases pid0 with _ | s1 <;> rcases doi0 with _ | s2
    · simp at h
    · -- no paper_id, doi string
      by_cases hd : normalizeDoi (Option.some s2) ∈ dois
      · simp only [hd, decide_True, decide_False] at h
        simp at h
        obtain ⟨hk, hp⟩ := h
        refine ⟨pyStrip t0, _, yr0, Option.none, Option.some (pyStrip s2),
          hp.symm, pyStrip_idem t0, hts, cleanedAuthors_facts auths0, hyr,
          ?_, ?_, ?_⟩
        · intro s hs
          exact absurd hs (by simp)
        · intro s hs
          injection hs with hs
          subst hs
          exact ⟨pyStrip_idem s2, by rw [normalizeDoi_pyStrip]; exact hd⟩
        · intro _
          refine ⟨pyStrip s2, rfl, ?_⟩
          rw [normalizeDoi_pyStrip]
          exact hk.symm
      · simp only [hd, decide_True, decide_False] at h
        simp at h
    · -- paper_id string, no doi
      by_cases hp1 : pyStrip s1 ∈ ids
      · simp only [hp1, decide_True, decide_False] at h
        simp at h
        obtain ⟨hk, hp⟩ := h
        refine ⟨pyStrip t0, _, yr0, Option.some (pyStrip s1), Option.none,
          hp.symm, pyStrip_idem t0, hts, cleanedAuthors_facts auths0, hyr,
          ?_, ?_, ?_⟩
        · intro s hs
          injection hs with hs
          subst hs
          exact ⟨pyStrip_idem s1, (pyStrip_idem s1).symm ▸ hp1, hk.symm⟩
        · intro s hs
          exact absurd hs (by simp)
        · intro hc
          exact absurd hc (by simp)
      · simp only [hp1, decide_True, decide_False] at h
        simp at h
    · -- both anchors are strings
      by_cases hp1 : pyStrip s1 ∈ ids <;> by_cases hd : normalizeDoi (Option.some s2) ∈ dois
      · simp only [hp1, hd, decide_True, decide_False] at h
        simp at h
        obtain ⟨hk, hp⟩ := h
        refine ⟨pyStrip t0, _, yr0, Option.some (pyStrip s1), Option.some (pyStrip s2),
          hp.symm, pyStrip_idem t0, hts, cleanedAuthors_facts auths0, hyr,
          ?_, ?_, ?_⟩
        · intro s hs
          injection hs with hs
          subst hs
          exact ⟨pyStrip_idem s1, (pyStrip_idem s1).symm ▸ hp1, hk.symm⟩
        · intro s hs
          injection hs with hs
          subst hs
          exact ⟨pyStrip_idem s2, by rw [normalizeDoi_pyStrip]; exact hd⟩
        · intro hc
          exact absurd hc (by simp)
      · simp only [hp1, hd, decide_True, decide_False] at h
        simp at h
        obtain ⟨hk, hp⟩ := h
        refine ⟨pyStrip t0, _, yr0, Option.some (pyStrip s1), Option.none,
          hp.symm, pyStrip_idem t0, hts, cleanedAuthors_facts auths0, hyr,
          ?_, ?_, ?_⟩
        · intro s hs
          injection hs with hs
          subst hs
          exact ⟨pyStrip_idem s1, (pyStrip_idem s1).symm ▸ hp1, hk.symm⟩
        · intro s hs
          exact absurd hs (by simp)
        · intro hc
          exact absurd hc (by simp)
      · simp only [hp1, hd, decide_True, decide_False] at h
        simp at h
        obtain ⟨hk, hp⟩ := h
        refine ⟨pyStrip t0, _, yr0, Option.none, Option.some (pyStrip s2),
          hp.symm, pyStrip_idem t0, hts, cleanedAuthors_facts auths0, hyr,
          ?_, ?_, ?_⟩
        · intro s hs
          exact absurd hs (by simp)
        · intro s hs
          injection hs with hs
          subst hs
          exact ⟨pyStrip_idem s2, by rw [normalizeDoi_pyStrip]; exact hd⟩
        · intro _
          refine ⟨pyStrip s2, rfl, ?_⟩
          rw [normalizeDoi_pyStrip]
          exact hk.symm
      · simp only [hp1, hd, decide_True, decide_False] at h
        simp at h

/-- A canonical payload with a non-empty author list is a fixpoint of the
sanitizer body, with the same dedup key. -/
theorem sanitizeOne_canonical_fix (ids dois : List String)
    (t : String) (auths : List String) (yr : PyVal) (pid doi : Option String)
    (k : String)
    (ht : pyStrip t = t) (ht0 : t ≠ "")
    (hauth : ∀ a ∈ auths, pyStrip a = a ∧ a ≠ "") (hane : auths ≠ [])
    (hy : isIntLike yr = true)
    (hpid : ∀ s, pid = Option.some s → pyStrip s = s ∧ s ∈ ids ∧ k = s)
    (hdoi : ∀ s, doi = Option.some s →
      pyStrip s = s ∧ normalizeDoi (Option.some s) ∈ dois)
    (hnonepid : pid = Option.none →
      ∃ s, doi = Option.some s ∧ k = "doi:" ++ normalizeDoi (Option.some s)) :
    sanitizeOne ids dois (mkSanPayload t auths yr pid doi) =
      Option.some (k, mkSanPayload t auths yr pid doi) := by
  have hparse := parseCitation_mkSanPayload t auths yr pid doi ht0 ht hane hy
  have hclean : ((auths.map PyVal.str).map fun item => pyStrip (pyStr item)).filter
      (· ≠ "") = auths := cleanAuthors_self auths hauth
  unfold sanitizeOne
  rw [hparse]
  rcases pid with _ | s1
  · obtain ⟨s2, hd2, hk⟩ := hnonepid rfl
    subst hd2
    obtain ⟨hs2, hmem⟩ := hdoi s2 rfl
    simp only [hmem, decide_True, Bool.false_eq_true, false_or, if_pos,
      Option.map_some']
    rw [hclean, hs2, ht]
    simp [hk]
  · obtain ⟨hs1, hmem1, hk1⟩ := hpid s1 rfl
    rcases doi with _ | s2
    · simp only [hmem1, decide_True, Option.map_some']
      rw [hclean, hs1, ht]
      simp [hk1, hmem1]
    · obtain ⟨hs2, hmem2⟩ := hdoi s2 rfl
      simp only [hmem1, hmem2, decide_True, Option.map_some']
      rw [hclean, hs1, hs2, ht]
      simp [hk1, hmem1]

/-- The sanitizer loop's output is the payload column of key/payload
emissions with duplicate-free keys disjoint from `seen`. -/
theorem sanitizeGo_emissions (ids dois : List String) :
    ∀ (cs : List PyVal) (seen : List String),
      ∃ l : List (String × PyVal),
        sanitizeGo ids dois cs seen = l.map Prod.snd ∧
        (∀ kp ∈ l, ∃ c ∈ cs, sanitizeOne ids dois c = Option.some kp) ∧
        (l.map Prod.fst).Nodup ∧
        (∀ x ∈ l.map Prod.fst, x ∉ seen) := by
  intro cs
  induction cs with
  | nil =>
      intro seen
      exact ⟨[], rfl, by simp, by simp, by simp⟩
  | cons c rest ih =>
      intro seen
      unfold sanitizeGo
      rcases hso : sanitizeOne ids dois c with _ | ⟨k0, p0⟩
      · obtain ⟨l, h1, h2, h3, h4⟩ := ih seen
        refine ⟨l, h1, ?_, h3, h4⟩
        intro kp hkp
        obtain ⟨c', hc', hso'⟩ := h2 kp hkp
        exact ⟨c', List.mem_cons_of_mem _ hc', hso'⟩
      · by_cases hseen : k0 ∈ seen
        · simp only [hseen, if_true]
          obtain ⟨l, h1, h2, h3, h4⟩ := ih seen
          refine ⟨l, h1, ?_, h3, h4⟩
          intro kp hkp
          obtain ⟨c', hc', hso'⟩ := h2 kp hkp
          exact ⟨c', List.mem_cons_of_mem _ hc', hso'⟩
        · simp only [hseen, if_false]
          obtain ⟨l, h1, h2, h3, h4⟩ := ih (k0 :: seen)
          refine ⟨(k0, p0) :: l, by simp [h1], ?_, ?_, ?_⟩
          · intro kp hkp
            rcases List.mem_cons.mp hkp with rfl | hkp
            · exact ⟨c, List.mem_cons_self _ _, hso⟩
            · obtain ⟨c', hc', hso'⟩ := h2 kp hkp
              exact ⟨c', List.mem_cons_of_mem _ hc', hso'⟩
          · simp only [List.map_cons, List.nodup_cons]
            exact ⟨fun hc => h4 k0 hc (List.mem_cons_self _ _), h3⟩
          · intro x hx
            simp only [List.map_cons, List.mem_cons] at hx
            rcases hx with rfl | hx
            · exact hseen
            · exact fun hc => h4 x hx (List.mem_cons_of_mem _ hc)

/-- A list of canonical key/payload pairs with fresh, duplicate-free keys
passes through the sanitizer loop unchanged. -/
theorem sanitizeGo_fixpoint (ids dois : List String) :
    ∀ (l : List (String × PyVal)) (seen : List String),
      (∀ kp ∈ l, sanitizeOne ids dois kp.2 = Option.some kp) →
      (l.map Prod.fst).Nodup →
      (∀ x ∈ l.map Prod.fst, x ∉ seen) →
      sanitizeGo ids dois (l.map Prod.snd) seen = l.map Prod.snd := by
  intro l
  induction l with
  | nil => intro seen _ _ _; rfl
  | cons kp rest ih =>
      intro seen hcan hnd hdisj
      obtain ⟨k0, p0⟩ := kp
      have hfix := hcan (k0, p0) (List.mem_cons_self _ _)
      have hk0 : k0 ∉ seen := hdisj k0 (by simp)
      simp only [List.map_cons]
      unfold sanitizeGo
      rw [hfix]
      simp only [hk0, if_false]
      have hnd' : (k0 :: rest.map Prod.fst).Nodup := by simpa using hnd
      obtain ⟨hnd0, hndrest⟩ := List.nodup_cons.mp hnd'
      have hrest := ih (k0 :: seen)
        (fun kp hkp => hcan kp (List.mem_cons_of_mem _ hkp))
        hndrest
        (by
          intro x hx
          simp only [List.mem_cons]
          rintro (rfl | hxs)
          · exact hnd0 hx
          · exact hdisj x (by
              simp only [List.map_cons, List.mem_cons]
              exact Or.inr hx) hxs)
      rw [hrest]

/-- C8 (amended).  The citation sanitizer is idempotent on every input whose
first-pass output has only non-empty author lists; the counterexample shows
the whitespace-only-author case is the only obstruction. -/
theorem sanitize_citations_idempotent_on_clean (citations : PyVal)
    (papers : List Paper)
    (H : ∀ p ∈ sanitizeCitations citations papers,
      ∀ l, p.get "authors" = Option.some (PyVal.list l) → l ≠ []) :
    sanitizeCitations (PyVal.list (sanitizeCitations citations papers)) papers =
      sanitizeCitations citations papers := by
  rcases citations with _ | _ | _ | _ | _ | cs | _
  case list =>
    obtain ⟨l, h1, h2, h3, h4⟩ :=
      sanitizeGo_emissions (validIdsOf papers) (validDoisOf papers) cs []
    have hout : sanitizeCitations (PyVal.list cs) papers = l.map Prod.snd := h1
    rw [hout]
    show sanitizeGo (validIdsOf papers) (validDoisOf papers) (l.map Prod.snd) [] =
      l.map Prod.snd
    apply sanitizeGo_fixpoint
    · intro kp hkp
      obtain ⟨k1, p1⟩ := kp
      obtain ⟨c, hc, hso⟩ := h2 (k1, p1) hkp
      obtain ⟨t, auths, yr, pid, doi, hp, hts, ht0, hau, hyr, hpidf, hdoif, hnone⟩ :=
        sanitizeOne_shape (validIdsOf papers) (validDoisOf papers) c k1 p1 hso
      have hpmem : p1 ∈ sanitizeCitations (PyVal.list cs) papers := by
        rw [hout]
        exact List.mem_map.mpr ⟨(k1, p1), hkp, rfl⟩
      have hne : auths.map PyVal.str ≠ [] := by
        apply H p1 hpmem
        rw [hp, mkSanPayload_get_authors]
      have hane : auths ≠ [] := fun hc0 => hne (by simp [hc0])
      show sanitizeOne (validIdsOf papers) (validDoisOf papers) p1 =
        Option.some (k1, p1)
      rw [hp]
      exact sanitizeOne_canonical_fix _ _ t auths yr pid doi k1
        hts ht0 hau hane hyr hpidf hdoif hnone
    · exact h3
    · simp
  all_goals rfl

/-- Witness for the amended C8: a clean citation list is a sanitizer
fixpoint. -/
theorem sanitize_citations_idempotent_on_clean_witness :
    sanitizeCitations (PyVal.list (sanitizeCitations
        (PyVal.list [PyVal.dict
          [("title", PyVal.str "T"), ("authors", PyVal.list [PyVal.str "A"]),
           ("year", PyVal.int 2020), ("paper_id", PyVal.str "p1")]])
        [c8paper])) [c8paper] =
      sanitizeCitations
        (PyVal.list [PyVal.dict
          [("title", PyVal.str "T"), ("authors", PyVal.list [PyVal.str "A"]),
           ("year", PyVal.int 2020), ("paper_id", PyVal.str "p1")]])
        [c8paper] := by
  apply sanitize_citations_idempotent_on_clean
  intro p hp l hl
  have hres : sanitizeCitations
      (PyVal.list [PyVal.dict
        [("title", PyVal.str "T"), ("authors", PyVal.list [PyVal.str "A"]),
         ("year", PyVal.int 2020), ("paper_id", PyVal.str "p1")]])
      [c8paper] =
      [PyVal.dict
        [("title", PyVal.str "T"), ("authors", PyVal.list [PyVal.str "A"]),
         ("year", PyVal.int 2020), ("paper_id", PyVal.str "p1")]] := rfl
  rw [hres] at hp
  rcases List.mem_singleton.mp hp with rfl
  have : l = [PyVal.str "A"] := by
    have hgl : (PyVal.dict
        [("title", PyVal.str "T"), ("authors", PyVal.list [PyVal.str "A"]),
         ("year", PyVal.int 2020), ("paper_id", PyVal.str "p1")]).get "authors" =
        Option.some (PyVal.list [PyVal.str "A"]) := rfl
    rw [hgl] at hl
    injection hl with hl
    injection hl with hl
    exact hl.symm
  rw [this]
  simp

/-! ## C4: literal-safe template rendering vs `str.format` -/

/-- The prompt template from the repo's own test
`test_render_template_preserves_literal_json_braces`, containing a literal
JSON example in braces. -/
def c4template : String :=
  "Question: \x7bquestion\x7d\nDo not output JSON other than \x7b\"summa_rendering\": \"...\"\x7d."

/-- C4.  `crew_v2_stages._render_template` substitutes `{question}` by
substring replacement and preserves the literal JSON braces, while the
`str.format` call in `crew_v2._run_agent_task` raises `KeyError` on the very
same template — the behavior the claim (and the repo's own test and the
stages module's docstring) rules out. -/
theorem render_template_literal_safe_vs_format :
    renderTemplate c4template [("question", "Q?")] =
      "Question: Q?\nDo not output JSON other than \x7b\"summa_rendering\": \"...\"\x7d." ∧
    pyFormat c4template [("question", "Q?")] =
      Except.error "KeyError: \"summa_rendering\"" := by
  constructor <;> rfl

/-! ## C5: grounding fallback in the generator normalizer -/

/-- Generator output with one hypothesis and an empty citation list. -/
def c5payload : PyVal :=
  PyVal.dict
    [("hypotheses", PyVal.list
      [PyVal.dict
        [("id", PyVal.str "h1"),
         ("title", PyVal.str "title"),
         ("statement", PyVal.str "statement"),
         ("novelty_rationale", PyVal.str "n"),
         ("plausibility_rationale", PyVal.str "p"),
         ("testability_rationale", PyVal.str "t"),
         ("falsifiable_predictions", PyVal.list [PyVal.str "f"]),
         ("minimal_experiments", PyVal.list [PyVal.str "m"]),
         ("citations", PyVal.list [])]])]

/-- C5.  On a usable one-paper catalog and a hypothesis with no surviving
citations, `crew_v2_postprocess._normalize_generated_hypotheses` substitutes
the grounding-fallback citation, but `crew_v2.py`'s own
`_normalize_generated_hypotheses` (the one the pipeline controller calls)
leaves the citations empty — the behavior the claim and the repo test
`test_normalize_generated_hypotheses_falls_back_to_grounded_citations`
require. -/
theorem generator_normalizer_citation_fallback_divergence :
    (normalizeGeneratedV2 c5payload [samplePaper]).map
        (fun hyps => hyps.map (fun h => h.get "citations")) =
      Except.ok [Option.some (PyVal.list [])] ∧
    (normalizeGeneratedPost c5payload [samplePaper]).map
        (fun hyps => hyps.map (fun h => h.get "citations")) =
      Except.ok [Option.some (PyVal.list [fallbackCite samplePaper])] := by
  constructor <;> rfl

/-! ## C2: tie scoring in pairwise ranking -/

/-- Two minimal hypotheses `h1`, `h2`. -/
def c2hyps : List PyVal :=
  [PyVal.dict [("id", PyVal.str "h1")], PyVal.dict [("id", PyVal.str "h2")]]

def c2comps : List PyVal :=
  [PyVal.dict
    [("hypothesis_a_id", PyVal.str "h1"),
     ("hypothesis_b_id", PyVal.str "h2"),
     ("winner_novelty", PyVal.str "tie"),
     ("winner_plausibility", PyVal.str "tie"),
     ("winner_testability", PyVal.str "tie")]]

def c2ranker : PyVal :=
  PyVal.dict [("comparisons", PyVal.list c2comps)]

def c2rawV2 : String → Dim → ℚ := fun hid d =>
  (((((winsMap ["h1", "h2"] (combinedComparisons ["h1", "h2"] c2comps)).lookup
        hid).getD ⟨0, 0, 0⟩).get d : Int) : ℚ)

def c2rawPost : String → Dim → ℚ := fun hid d =>
  (((pointsMap ["h1", "h2"] (combinedComparisons ["h1", "h2"] c2comps)).lookup
      hid).getD ⟨0, 0, 0⟩).get d

lemma quadLE_refl (x : ℚ × ℚ × ℚ × ℚ) : quadLE x x :=
  Or.inr ⟨rfl, Or.inr ⟨rfl, Or.inr ⟨rfl, le_refl _⟩⟩⟩

lemma rankAndUpdate_const_score (hyps : List PyVal) (ids : List String)
    (combined : List Cmp) (raw : String → Dim → ℚ) (q : ℚ × ℚ × ℚ × ℚ)
    (hq : ∀ hid ∈ ids, scoreQuad (raw hid) (divisorOf ids) = q) :
    rankAndUpdate hyps ids combined raw =
      (ids, ids.map fun hid =>
        ((byIdLast hyps hid).setKey "pairwise_record"
            (pairwiseRecordFor hid combined
              (((winsMap ids combined).lookup hid).getD ⟨0, 0, 0⟩))).setKey
          "scores" (scoresDict q)) := by
  simp only [rankAndUpdate]
  refine Prod.ext ?_ ?_
  · refine List.Sorted.insertionSort_eq ?_
    refine List.pairwise_of_forall_mem_list ?_
    intro a ha b hb
    show quadLE (rankKey _ b) (rankKey _ a)
    simp only [rankKey, hq a ha, hq b hb]
    exact quadLE_refl _
  · refine List.map_congr_left ?_
    intro hid hmem
    rw [hq hid hmem]

lemma c2comb_eq : combinedComparisons ["h1", "h2"] c2comps =
    [⟨"h1", "h2", "tie", "tie", "tie"⟩] := by
  simp [combinedComparisons, normCompsGo, expectedPairs, upairs, sortPair,
    asNonemptyText, winnerOf, pyStrip, stripChars, rdropWhileP, isPyWS,
    PyVal.getd, PyVal.get, c2comps, List.dedup, List.insertionSort,
    List.orderedInsert, pairLE]
  decide

lemma c2winsMap_eq :
    winsMap ["h1", "h2"] (combinedComparisons ["h1", "h2"] c2comps) =
      [("h1", ⟨0, 0, 0⟩), ("h2", ⟨0, 0, 0⟩)] := by
  rw [c2comb_eq]
  rfl

lemma c2pointsMap_eq :
    pointsMap ["h1", "h2"] (combinedComparisons ["h1", "h2"] c2comps) =
      [("h1", ⟨0 + 1/2, 0 + 1/2, 0 + 1/2⟩),
       ("h2", ⟨0 + 1/2, 0 + 1/2, 0 + 1/2⟩)] := by
  rw [c2comb_eq]
  rfl

lemma c2rawV2_quad (hid : String) (hmem : hid ∈ ["h1", "h2"]) :
    scoreQuad (c2rawV2 hid) (divisorOf ["h1", "h2"]) = (1, 1, 1, 1) := by
  have h0 : ((winsMap ["h1", "h2"]
      (combinedComparisons ["h1", "h2"] c2comps)).lookup hid).getD
        ⟨0, 0, 0⟩ = (⟨0, 0, 0⟩ : DimCounts Int) := by
    rw [c2winsMap_eq]
    rcases (by simpa using hmem : hid = "h1" ∨ hid = "h2") with rfl | rfl <;>
      simp [List.lookup]
  show scoreQuad (fun d => _) _ = _
  simp only [c2rawV2, h0]
  norm_num [scoreQuad, pyRound3, divisorOf, DimCounts.get]

lemma c2rawPost_quad (hid : String) (hmem : hid ∈ ["h1", "h2"]) :
    scoreQuad (c2rawPost hid) (divisorOf ["h1", "h2"]) = (3, 3, 3, 3) := by
  have h0 : ((pointsMap ["h1", "h2"]
      (combinedComparisons ["h1", "h2"] c2comps)).lookup hid).getD
        ⟨0, 0, 0⟩ = (⟨0 + 1/2, 0 + 1/2, 0 + 1/2⟩ : DimCounts ℚ) := by
    rw [c2pointsMap_eq]
    rcases (by simpa using hmem : hid = "h1" ∨ hid = "h2") with rfl | rfl <;>
      simp [List.lookup]
  show scoreQuad (fun d => _) _ = _
  simp only [c2rawPost, h0]
  norm_num [scoreQuad, pyRound3, divisorOf, DimCounts.get]

/-- C2.  On the all-tie two-hypothesis input,
`crew_v2_postprocess._apply_pairwise_ranking` (points: 0.5 per tie to both
sides) yields scores 3.0 across the board as the claim states, but
`crew_v2.py`'s own `_apply_pairwise_ranking` (the one the pipeline controller
calls) computes scores from integer win counts only, yielding 1.0 everywhere
— contradicting the claim, the spec and the repo test
`test_apply_pairwise_ranking_tie_centers_scores`. -/
theorem pairwise_tie_scores_divergence :
    (applyPairwiseRankingV2 c2hyps c2ranker).map
        (fun r => r.2.map (fun h => h.get "scores")) =
      Except.ok [Option.some (scoresDict (1, 1, 1, 1)),
        Option.some (scoresDict (1, 1, 1, 1))] ∧
    (applyPairwiseRankingPost c2hyps c2ranker).map
        (fun r => r.2.map (fun h => h.get "scores")) =
      Except.ok [Option.some (scoresDict (3, 3, 3, 3)),
        Option.some (scoresDict (3, 3, 3, 3))] := by
  have hV2 : applyPairwiseRankingV2 c2hyps c2ranker =
      Except.ok (rankAndUpdate c2hyps ["h1", "h2"]
        (combinedComparisons ["h1", "h2"] c2comps) c2rawV2) := rfl
  have hPost : applyPairwiseRankingPost c2hyps c2ranker =
      Except.ok (rankAndUpdate c2hyps ["h1", "h2"]
        (combinedComparisons ["h1", "h2"] c2comps) c2rawPost) := rfl
  constructor
  · rw [hV2, rankAndUpdate_const_score _ _ _ _ _ c2rawV2_quad]
    rfl
  · rw [hPost, rankAndUpdate_const_score _ _ _ _ _ c2rawPost_quad]
    rfl

/-! ## C3: the tolerant composer stage -/

/-- C3 counterexample.  On empty reasoner output the composer stage does
*fail*: `_run_summa_composer_stage` raises
`ValueError("SummaComposer returned empty output.")` instead of returning a
`{"summa_rendering": raw}` wrapper, contradicting the claim's "the stage
does not fail". -/
theorem composer_stage_empty_output_raises :
    runSummaComposerStage (fun _ => Option.none) "" =
      Except.error "SummaComposer returned empty output." := rfl

/-- C3.  Amended tolerance: whenever the fence-stripped, whitespace-stripped
raw output is non-empty, the composer stage succeeds and its result carries a
non-empty `summa_rendering` string — either the parsed JSON object's own
non-blank rendering, or the stripped raw text wrapped as
`{"summa_rendering": cleaned}`.  (The original claim's "never aborts" is
refuted by `composer_stage_empty_output_raises`.) -/
theorem composer_stage_tolerant (loads : String → Option PyVal) (raw : String)
    (h : stripFencesMd (pyStrip raw) ≠ "") :
    ∃ d, runSummaComposerStage loads raw = Except.ok d ∧
      ∃ s, d.get "summa_rendering" = Option.some (PyVal.str s) ∧ s ≠ "" := by
  unfold runSummaComposerStage
  cases hpar : parseJsonObject loads raw with
  | error e =>
      refine ⟨PyVal.dict [("summa_rendering",
        PyVal.str (stripFencesMd (pyStrip raw)))], ?_,
        stripFencesMd (pyStrip raw), rfl, h⟩
      simp only [hpar]
      rw [if_neg h]
  | ok parsed =>
      simp only [hpar]
      cases hg : parsed.get "summa_rendering" with
      | none =>
          refine ⟨PyVal.dict [("summa_rendering",
            PyVal.str (stripFencesMd (pyStrip raw)))], ?_,
            stripFencesMd (pyStrip raw), rfl, h⟩
          simp only [hg]
          rw [if_neg h]
      | some v =>
          cases v with
          | str s =>
              by_cases hs : pyStrip s = ""
              · refine ⟨PyVal.dict [("summa_rendering",
                  PyVal.str (stripFencesMd (pyStrip raw)))], ?_,
                  stripFencesMd (pyStrip raw), rfl, h⟩
                simp only [hg, hs]
                rw [if_neg (by simp), if_neg h]
              · refine ⟨parsed, ?_, s, hg, ?_⟩
                · simp only [hg]
                  rw [if_pos hs]
                · intro hempty
                  exact hs (by rw [hempty]; rfl)
          | none =>
              refine ⟨PyVal.dict [("summa_rendering",
                PyVal.str (stripFencesMd (pyStrip raw)))], ?_,
                stripFencesMd (pyStrip raw), rfl, h⟩
              simp only [hg]
              rw [if_neg h]
          | bool b =>
              refine ⟨PyVal.dict [("summa_rendering",
                PyVal.str (stripFencesMd (pyStrip raw)))], ?_,
                stripFencesMd (pyStrip raw), rfl, h⟩
              simp only [hg]
              rw [if_neg h]
          | int n =>
              refine ⟨PyVal.dict [("summa_rendering",
                PyVal.str (stripFencesMd (pyStrip raw)))], ?_,
                stripFencesMd (pyStrip raw), rfl, h⟩
              simp only [hg]
              rw [if_neg h]
          | float q =>
              refine ⟨PyVal.dict [("summa_rendering",
                PyVal.str (stripFencesMd (pyStrip raw)))], ?_,
                stripFencesMd (pyStrip raw), rfl, h⟩
              simp only [hg]
              rw [if_neg h]
          | list l =>
              refine ⟨PyVal.dict [("summa_rendering",
                PyVal.str (stripFencesMd (pyStrip raw)))], ?_,
                stripFencesMd (pyStrip raw), rfl, h⟩
              simp only [hg]
              rw [if_neg h]
          | dict kvs =>
              refine ⟨PyVal.dict [("summa_rendering",
                PyVal.str (stripFencesMd (pyStrip raw)))], ?_,
                stripFencesMd (pyStrip raw), rfl, h⟩
              simp only [hg]
              rw [if_neg h]

theorem composer_stage_tolerant_witness :
    stripFencesMd (pyStrip "plain text") ≠ "" ∧
    ∃ d, runSummaComposerStage (fun _ => Option.none) "plain text" =
        Except.ok d ∧
      ∃ s, d.get "summa_rendering" = Option.some (PyVal.str s) ∧ s ≠ "" :=
  ⟨by decide,
   composer_stage_tolerant (fun _ => Option.none) "plain text" (by decide)⟩

/-! ## C10: entry input validation -/

/-- C10.  `run_summa_v2` strips the question before the emptiness check, so a
whitespace-only question is rejected with `ValueError("Question cannot be
empty.")` for every oracle (no stage runs); `top ∉ {1,3}` is likewise
rejected; and a whitespace-only (non-empty) `domain`/`objective` argument is
replaced by the configured default rather than used verbatim. -/
theorem entry_input_validation (oracle : Oracle) (settings : Settings)
    (question : String) (domain objective : Option String) (top : Int) :
    (pyStrip question = "" →
      runSummaV2 oracle settings question domain objective top =
        Except.error (PyExc.valueError "Question cannot be empty.")) ∧
    (pyStrip question ≠ "" → ¬(top = 1 ∨ top = 3) →
      runSummaV2 oracle settings question domain objective top =
        Except.error (PyExc.valueError "top must be 1 or 3 for V2 mode.")) ∧
    (∀ s : String, pyStrip s = "" → s ≠ "" →
      cleanedDomainOf (Option.some s) settings = settings.defaultDomain ∧
      cleanedObjectiveOf (Option.some s) settings = settings.defaultObjective) := by
  refine ⟨?_, ?_, ?_⟩
  · intro h
    simp only [runSummaV2]
    rw [if_pos h]
  · intro h1 h2
    simp only [runSummaV2]
    rw [if_neg h1, if_pos h2]
  · intro s hs hne
    constructor
    · simp only [cleanedDomainOf]
      rw [if_pos hne, if_neg (by simp [hs])]
    · simp only [cleanedObjectiveOf]
      rw [if_pos hne, if_neg (by simp [hs])]

/-- Concrete oracle for the input-validation witness (its stages all fail;
irrelevant, since validation rejects before any stage runs). -/
def c10oracle : Oracle :=
  ⟨fun _ _ => Except.error "unused", ⟨"ok", "", [], [], []⟩, fun _ => Option.none⟩

def c10settings : Settings :=
  ⟨"m", false, "general science", "broad exploration"⟩

theorem entry_input_validation_witness :
    runSummaV2 c10oracle c10settings "   " Option.none Option.none 3 =
        Except.error (PyExc.valueError "Question cannot be empty.") ∧
    runSummaV2 c10oracle c10settings "q?" Option.none Option.none 2 =
        Except.error (PyExc.valueError "top must be 1 or 3 for V2 mode.") ∧
    cleanedDomainOf (Option.some " \t ") c10settings = "general science" ∧
    cleanedObjectiveOf (Option.some " \t ") c10settings = "broad exploration" :=
  ⟨(entry_input_validation c10oracle c10settings "   " Option.none Option.none
      3).1 (by decide),
   (entry_input_validation c10oracle c10settings "q?" Option.none Option.none
      2).2.1 (by decide) (by decide),
   ((entry_input_validation c10oracle c10settings "q?" Option.none Option.none
      2).2.2 " \t " (by decide) (by decide)).1,
   ((entry_input_validation c10oracle c10settings "q?" Option.none Option.none
      2).2.2 " \t " (by decide) (by decide)).2⟩

/-! ## C1: the controller raises on a second validation failure -/

/-- Generator output: three minimal hypotheses (so no diversity retry). -/
def c1gen : PyVal :=
  PyVal.dict [("hypotheses", PyVal.list
    [PyVal.dict [("id", PyVal.str "h1")],
     PyVal.dict [("id", PyVal.str "h2")],
     PyVal.dict [("id", PyVal.str "h3")]])]

/-- Critic output: `h1` carries an objection numbered `0`, which the
objection filler turns into the number multiset `{0,1,2}` — a contract
violation no composer retry can repair. -/
def c1critic : PyVal :=
  PyVal.dict [("hypotheses", PyVal.list
    [PyVal.dict [("id", PyVal.str "h1"),
       ("objections", PyVal.list
         [PyVal.dict [("number", PyVal.int 0), ("text", PyVal.str "o")]])],
     PyVal.dict [("id", PyVal.str "h2")],
     PyVal.dict [("id", PyVal.str "h3")]])]

/-- Ranker output with no comparisons (synthetic all-ties fill in). -/
def c1ranker : PyVal := PyVal.dict [("comparisons", PyVal.list [])]

/-- Composer output with a non-empty rendering (also returned by the
post-validation composer retry). -/
def c1composer : PyVal :=
  PyVal.dict [("summa_rendering", PyVal.str "Rendering.")]

/-- A fully successful reasoner: every stage returns well-formed output on
the first attempt; retrieval returns no papers; the JSON-schema check
passes. -/
def c1oracle : Oracle :=
  ⟨fun name _ =>
      if name = "problem_framer" then Except.ok (PyVal.dict [])
      else if name = "literature_scout" then Except.ok (PyVal.dict [])
      else if name = "hypothesis_generator" then Except.ok c1gen
      else if name = "critic" then Except.ok c1critic
      else if name = "ranker" then Except.ok c1ranker
      else if name = "summa_composer" then Except.ok c1composer
      else Except.error "unexpected stage",
   ⟨"no_grounded_citations_found", "no grounded citations found", [], [], []⟩,
   fun _ => Option.none⟩

def c1settings : Settings :=
  ⟨"m", false, "general science", "broad exploration"⟩

set_option maxRecDepth 10000 in
/-- C1.  A run in which every stage succeeds but the assembled payload fails
contract validation twice (an objection numbered 0 survives normalization,
and the composer retry can only change `summa_rendering`) makes
`run_summa_v2` raise the second `ContractValidationError` to the caller:
the `except` clause catches only `_StageFailure`, so no partial-failure
payload with `error.stage = "summa_composer"` is returned, contradicting
the claim and spec sections 4.11/4.12. -/
theorem controller_uncaught_contract_error :
    runSummaV2 c1oracle c1settings "Why do stars fuse?" Option.none
        Option.none 3 =
      Except.error (PyExc.contractError
        "Hypothesis h1 objections must be numbered 1,2,3.") := by
  with_unfolding_all rfl
